import Mathlib

/-
  Verification of the ai_career_match backend against its specification.

  Python strings are modelled as lists of characters (`Str`); machine floats
  that only carry scores are modelled as exact rationals; external
  collaborators (the TF-IDF vectorizer, the job catalogue, the LLM) are
  modelled as explicit oracle parameters.  Python's `str.lower` is modelled
  on the ASCII fragment (`Char.toLower`), which agrees with CPython on all
  ASCII input.
-/

namespace CareerMatch

/-- A Python string, modelled as its list of characters. -/
abbrev Str := List Char

/-- Python whitespace characters recognised by `str.strip()` (ASCII fragment). -/
def pyIsSpace (c : Char) : Bool :=
  c = ' ' || c = '\t' || c = '\n' || c = '\r' || c = '\x0b' || c = '\x0c'

/-- Python `str.strip()`: drop leading and trailing whitespace. -/
def pyStrip (s : Str) : Str :=
  ((s.dropWhile pyIsSpace).reverse.dropWhile pyIsSpace).reverse

/-- Python string comparison (`<` on strings, code-point lexicographic). -/
def strLt : Str → Str → Bool
  | [], [] => false
  | [], _ :: _ => true
  | _ :: _, [] => false
  | a :: s, b :: t =>
    if a.toNat < b.toNat then true
    else if b.toNat < a.toNat then false
    else strLt s t

/-- Python `str.lower()` on the ASCII fragment. -/
def pyLower (s : Str) : Str := s.map Char.toLower

/-- A regex `\w` word character (ASCII letters, digits, underscore; any
non-ASCII code point is treated as a word character, matching Python's
Unicode-aware `\w` on accented letters). -/
def isWordChar (c : Char) : Bool :=
  c.isAlphanum || c = '_' || decide (c.val ≥ 128)

/-- One-pass tokenizer accumulator: `acc` is the current word-character run,
reversed.  Structural recursion keeps this kernel-reducible. -/
def wordTokensAux : Str → Str → List Str
  | [], acc => if acc.isEmpty then [] else [acc.reverse]
  | c :: s, acc =>
    if isWordChar c then
      wordTokensAux s (c :: acc)
    else if acc.isEmpty then
      wordTokensAux s []
    else
      acc.reverse :: wordTokensAux s []

/-- The list of maximal `\w+` runs of a string (Python `re.findall(r"\w+", s)`). -/
def wordTokens (s : Str) : List Str := wordTokensAux s []

/-- Python substring membership (`p in s` for strings). -/
def containsSub (p : Str) : Str → Bool
  | [] => p.isEmpty
  | s@(_ :: t) => p.isPrefixOf s || containsSub p t

/-! ## C1: escape_latex (src/backend/utils/latex_utils.py) -/

/-- Python `text.replace(c, r)` for a single-character pattern `c`:
every occurrence of `c` is replaced by `r`, left to right, in one pass. -/
def replaceChar (c : Char) (r : Str) : Str → Str
  | [] => []
  | a :: s => (if a = c then r else [a]) ++ replaceChar c r s

/-- The escape sequence for the circumflex. -/
def circEsc : Str := '\\' :: 't' :: 'e' :: 'x' :: 't' :: 'a' :: 's' :: 'c' :: 'i' :: 'i' :: 'c' :: 'i' :: 'r' :: 'c' :: 'u' :: 'm' :: '{' :: '}' :: []

/-- The escape sequence for the tilde. -/
def tildeEsc : Str := '\\' :: 't' :: 'e' :: 'x' :: 't' :: 'a' :: 's' :: 'c' :: 'i' :: 'i' :: 't' :: 'i' :: 'l' :: 'd' :: 'e' :: '{' :: '}' :: []

/-- The escape sequence for the backslash. -/
def bslashEsc : Str := '\\' :: 't' :: 'e' :: 'x' :: 't' :: 'b' :: 'a' :: 'c' :: 'k' :: 's' :: 'l' :: 'a' :: 's' :: 'h' :: '{' :: '}' :: []

/-- The escape sequence for the less-than sign. -/
def lessEsc : Str := '\\' :: 't' :: 'e' :: 'x' :: 't' :: 'l' :: 'e' :: 's' :: 's' :: '{' :: '}' :: []

/-- The escape sequence for the greater-than sign. -/
def gtrEsc : Str := '\\' :: 't' :: 'e' :: 'x' :: 't' :: 'g' :: 'r' :: 'e' :: 'a' :: 't' :: 'e' :: 'r' :: '{' :: '}' :: []

/-- The ordered replacement table of `escape_latex`
(insertion order of the Python dict in latex_utils.py lines 22-36). -/
def latexReplacements : List (Char × Str) :=
  [ ('&', ['\\', '&']), ('%', ['\\', '%']), ('$', ['\\', '$']), ('#', ['\\', '#']),
    ('^', circEsc), ('_', ['\\', '_']), ('{', ['\\', '{']), ('}', ['\\', '}']),
    ('|', ['\\', '|']), ('~', tildeEsc), ('\\', bslashEsc),
    ('<', lessEsc), ('>', gtrEsc) ]

/-- One of the 13 LaTeX special characters handled by `escape_latex`. -/
def isSpecialLatexChar (c : Char) : Bool :=
  latexReplacements.any (fun p => p.1 = c)

/-- `escape_latex(text)` from latex_utils.py: applies the 13 single-character
replacements sequentially, in dict insertion order. -/
def escape_latex (text : Str) : Str :=
  latexReplacements.foldl (fun t p => replaceChar p.1 p.2 t) text

/-- If `p` is a prefix of `s`, the remainder of `s` after `p`. -/
def dropIfPre : Str → Str → Option Str
  | [], s => some s
  | _ :: _, [] => none
  | a :: p, b :: s => if a = b then dropIfPre p s else none

/-- The 13 escape sequences produced by `escape_latex`, in table order. -/
def escSeqs : List Str :=
  [ ['\\', '&'], ['\\', '%'], ['\\', '$'], ['\\', '#'], circEsc, ['\\', '_'],
    ['\\', '{'], ['\\', '}'], ['\\', '|'], tildeEsc, bslashEsc, lessEsc, gtrEsc ]

/-- Strip one leading escape sequence, if any.  The escape-sequence family is
mutually non-prefixing, so at most one sequence can match. -/
def stripEsc (s : Str) : Option Str :=
  escSeqs.findSome? (fun e => dropIfPre e s)

/-- Fuel-indexed parser: a string parses iff it is a concatenation of
non-special characters and complete escape sequences.  One unit of fuel is
spent per parsing step, and every step consumes at least one character, so
fuel equal to the length always suffices. -/
def escOKAux : Nat → Str → Bool
  | _, [] => true
  | 0, _ :: _ => false
  | n + 1, a :: s =>
    match stripEsc (a :: s) with
    | some t => escOKAux n t
    | none => if isSpecialLatexChar a then false else escOKAux n s

/-- Whether a string contains no unescaped occurrence of a LaTeX special
character: it must parse as a concatenation of non-special characters and the
13 escape sequences produced by `escape_latex`. -/
def escOK (s : Str) : Bool := escOKAux s.length s

theorem replaceChar_append (c : Char) (r s t : Str) :
    replaceChar c r (s ++ t) = replaceChar c r s ++ replaceChar c r t := by
  induction s with
  | nil => rfl
  | cons a s ih => simp [replaceChar, ih]

theorem replaceChar_of_not_mem (c : Char) (r : Str) (s : Str) (h : c ∉ s) :
    replaceChar c r s = s := by
  induction s with
  | nil => rfl
  | cons a s ih =>
    have ha : a ≠ c := fun e => h (e ▸ List.mem_cons_self a s)
    simp only [replaceChar, if_neg (fun e => ha e), List.cons_append, List.nil_append]
    rw [ih (fun hm => h (List.mem_cons_of_mem a hm))]

theorem foldl_replace_of_not_mem (rs : List (Char × Str)) (s : Str)
    (h : ∀ p ∈ rs, p.1 ∉ s) :
    rs.foldl (fun t p => replaceChar p.1 p.2 t) s = s := by
  induction rs with
  | nil => rfl
  | cons p rs ih =>
    simp only [List.foldl_cons]
    rw [replaceChar_of_not_mem p.1 p.2 s (h p (List.mem_cons_self p rs))]
    exact ih (fun q hq => h q (List.mem_cons_of_mem p hq))

theorem dropIfPre_append_self (p t : Str) : dropIfPre p (p ++ t) = some t := by
  induction p with
  | nil => rfl
  | cons a p ih => simp [dropIfPre, ih]

theorem dropIfPre_length {p s u : Str} (h : dropIfPre p s = some u) :
    u.length + p.length = s.length := by
  induction p generalizing s with
  | nil =>
    cases s <;> (injection h with h; subst h; rfl)
  | cons a p ih =>
    cases s with
    | nil => cases h
    | cons b s =>
      simp only [dropIfPre] at h
      split at h
      · have := ih h
        simp only [List.length_cons]
        omega
      · cases h

theorem escOKAux_nil (n : Nat) : escOKAux n [] = true := by cases n <;> rfl

theorem stripEsc_some_length {s u : Str} (h : stripEsc s = some u) :
    u.length + 2 ≤ s.length := by
  obtain ⟨e, he, hd⟩ := List.exists_of_findSome?_eq_some h
  have h2 : 2 ≤ e.length := by fin_cases he <;> decide
  have := dropIfPre_length hd
  omega

theorem escOKAux_fuel : ∀ (n : Nat) (s : Str), s.length ≤ n → escOKAux n s = escOK s := by
  intro n
  induction n using Nat.strong_induction_on with
  | _ n ih =>
    intro s hs
    match n, s with
    | n, [] => rw [escOKAux_nil, escOK, escOKAux_nil]
    | 0, a :: t => exact absurd hs (by simp)
    | n + 1, a :: t =>
      have ht : t.length ≤ n := by
        simp only [List.length_cons] at hs
        omega
      rw [escOK]
      simp only [List.length_cons]
      cases hstrip : stripEsc (a :: t) with
      | some u =>
        have hu := stripEsc_some_length hstrip
        simp only [List.length_cons] at hu
        simp only [escOKAux, hstrip]
        rw [ih n (by omega) u (by omega), ih t.length (by omega) u (by omega)]
      | none =>
        simp only [escOKAux, hstrip]
        by_cases hsp : isSpecialLatexChar a
        · simp [hsp]
        · simp only [hsp, Bool.false_eq_true, if_false]
          rw [ih n (by omega) t (by omega), ih t.length (by omega) t le_rfl]

theorem stripEsc_cons_of_ne_backslash (a : Char) (t : Str) (ha : a ≠ '\\') :
    stripEsc (a :: t) = none := by
  have hb : ¬ ('\\' = a) := fun e => ha e.symm
  simp [stripEsc, escSeqs, circEsc, tildeEsc, bslashEsc, lessEsc, gtrEsc,
    List.findSome?_cons, dropIfPre, hb]

theorem escOK_cons_of_not_special (a : Char) (t : Str) (h : isSpecialLatexChar a = false) :
    escOK (a :: t) = escOK t := by
  have ha : a ≠ '\\' := by
    intro e
    subst e
    simp [isSpecialLatexChar, latexReplacements] at h
  rw [escOK]
  simp only [List.length_cons]
  simp only [escOKAux, stripEsc_cons_of_ne_backslash a t ha]
  simp only [h, Bool.false_eq_true, if_false]
  exact escOKAux_fuel t.length t le_rfl

theorem escOK_append_of_strip (a : Char) (e t : Str)
    (h : stripEsc ((a :: e) ++ t) = some t) :
    escOK ((a :: e) ++ t) = escOK t := by
  rw [escOK]
  simp only [List.cons_append, List.length_cons] at h ⊢
  simp only [escOKAux, h]
  exact escOKAux_fuel (e ++ t).length t (by simp)

theorem stripEsc_lessEsc (t : Str) : stripEsc (lessEsc ++ t) = some t := by
  simp [stripEsc, escSeqs, List.findSome?_cons, dropIfPre, circEsc,
    tildeEsc, bslashEsc, lessEsc, gtrEsc]

theorem stripEsc_gtrEsc (t : Str) : stripEsc (gtrEsc ++ t) = some t := by
  simp [stripEsc, escSeqs, List.findSome?_cons, dropIfPre, circEsc,
    tildeEsc, bslashEsc, lessEsc, gtrEsc]

theorem escOK_lessEsc_append (t : Str) : escOK (lessEsc ++ t) = escOK t :=
  escOK_append_of_strip '\\' lessEsc.tail t (stripEsc_lessEsc t)

theorem escOK_gtrEsc_append (t : Str) : escOK (gtrEsc ++ t) = escOK t :=
  escOK_append_of_strip '\\' gtrEsc.tail t (stripEsc_gtrEsc t)

/-- The first 11 replacement pairs of `escape_latex` (everything before the
angle-bracket replacements). -/
def latexReplacementsPre : List (Char × Str) :=
  [ ('&', ['\\', '&']), ('%', ['\\', '%']), ('$', ['\\', '$']), ('#', ['\\', '#']),
    ('^', circEsc), ('_', ['\\', '_']), ('{', ['\\', '{']), ('}', ['\\', '}']),
    ('|', ['\\', '|']), ('~', tildeEsc), ('\\', bslashEsc) ]

theorem latexReplacements_decomp :
    latexReplacements = latexReplacementsPre ++ [('<', lessEsc), ('>', gtrEsc)] := rfl

theorem escOK_replace_angle (s : Str)
    (h : ∀ a ∈ s, isSpecialLatexChar a = false ∨ a = '<' ∨ a = '>') :
    escOK (replaceChar '>' gtrEsc (replaceChar '<' lessEsc s)) = true := by
  induction s with
  | nil => rfl
  | cons a s ih =>
    have hs : ∀ x ∈ s, isSpecialLatexChar x = false ∨ x = '<' ∨ x = '>' :=
      fun x hx => h x (List.mem_cons_of_mem a hx)
    have hrec := ih hs
    rcases h a (List.mem_cons_self a s) with hns | hlt | hgt
    · have ha1 : a ≠ '<' := by
        intro e; subst e; simp [isSpecialLatexChar, latexReplacements] at hns
      have ha2 : a ≠ '>' := by
        intro e; subst e; simp [isSpecialLatexChar, latexReplacements] at hns
      have e1 : replaceChar '<' lessEsc (a :: s)
          = [a] ++ replaceChar '<' lessEsc s := by
        simp [replaceChar, ha1]
      rw [e1, replaceChar_append]
      have e2 : replaceChar '>' gtrEsc [a] = [a] := by
        simp [replaceChar, ha2]
      rw [e2, List.singleton_append, escOK_cons_of_not_special a _ hns]
      exact hrec
    · subst hlt
      have e1 : replaceChar '<' lessEsc ('<' :: s)
          = lessEsc ++ replaceChar '<' lessEsc s := by
        simp [replaceChar]
      rw [e1, replaceChar_append]
      have e2 : replaceChar '>' gtrEsc lessEsc = lessEsc := by decide
      rw [e2, escOK_lessEsc_append]
      exact hrec
    · subst hgt
      have e1 : replaceChar '<' lessEsc ('>' :: s)
          = ['>'] ++ replaceChar '<' lessEsc s := by
        simp [replaceChar]
      rw [e1, replaceChar_append]
      have e2 : replaceChar '>' gtrEsc ['>'] = gtrEsc ++ [] := by decide
      rw [e2, List.append_nil, escOK_gtrEsc_append]
      exact hrec

/-- Claim C1 as stated is false on the code: escaping the one-character string
consisting of the ampersand yields the string built from the backslash escape
sequence followed by a bare ampersand, because the later backslash replacement
rewrites the backslash that the ampersand replacement introduced.  The output
contains an unescaped ampersand, and applying `escape_latex` a second time
still leaves unescaped special characters. -/
theorem C1_counterexample :
    escape_latex ['&'] = bslashEsc ++ ['&'] ∧
    escOK (escape_latex ['&']) = false ∧
    escOK (escape_latex (escape_latex ['&'])) = false := by decide

/-- Claim C1, amended: `escape_latex` returns the empty string on empty input
and returns unchanged any input containing none of the 13 special characters;
an input whose special characters are all among the angle brackets is fully
escaped (its output parses with no unescaped special character).  The original
universal no-unescaped-output guarantee (and its double-application variant)
fails for the other 11 special characters, as the counterexample shows. -/
theorem C1_escape_latex_amended :
    escape_latex ([] : Str) = [] ∧
    (∀ s : Str, (∀ a ∈ s, isSpecialLatexChar a = false) → escape_latex s = s) ∧
    (∀ s : Str, (∀ a ∈ s, isSpecialLatexChar a = false ∨ a = '<' ∨ a = '>') →
      escOK (escape_latex s) = true) := by
  refine ⟨rfl, ?_, ?_⟩
  · intro s h
    apply foldl_replace_of_not_mem
    intro p hp hmem
    have := h p.1 hmem
    have : isSpecialLatexChar p.1 = true := by
      simp only [isSpecialLatexChar, List.any_eq_true]
      exact ⟨p, hp, by simp⟩
    simp_all
  · intro s h
    have hpre : latexReplacementsPre.foldl (fun t p => replaceChar p.1 p.2 t) s = s := by
      apply foldl_replace_of_not_mem
      intro p hp hmem
      rcases h p.1 hmem with hns | hlt | hgt
      · have : isSpecialLatexChar p.1 = true := by
          simp only [isSpecialLatexChar, List.any_eq_true]
          refine ⟨p, ?_, by simp⟩
          rw [latexReplacements_decomp]
          exact List.mem_append_left _ hp
        simp_all
      · fin_cases hp <;> simp_all
      · fin_cases hp <;> simp_all
    have : escape_latex s = replaceChar '>' gtrEsc (replaceChar '<' lessEsc s) := by
      rw [escape_latex, latexReplacements_decomp, List.foldl_append, hpre]
      rfl
    rw [this]
    exact escOK_replace_angle s h

/-- Witness for the amended C1 theorem at concrete inputs. -/
theorem C1_escape_latex_amended_witness :
    escape_latex ['j', 'o', 'b'] = ['j', 'o', 'b'] ∧
    escOK (escape_latex ['a', '<', 'b', '>']) = true :=
  ⟨C1_escape_latex_amended.2.1 ['j', 'o', 'b'] (by decide),
   C1_escape_latex_amended.2.2 ['a', '<', 'b', '>'] (by decide)⟩

/-! ## C3: is_ambiguous (src/backend/services/assistant.py lines 86-96) -/

/-- The vague-marker words of `is_ambiguous`. -/
def vagueMarkers : List Str :=
  ["help", "aide", "projet", "project", "issue", "problème", "error", "besoin",
   "conseil"].map String.toList

/-- The job-domain marker words of `is_ambiguous`. -/
def skillMarkers : List Str :=
  ["developpeur", "developer", "data", "analyste", "designer", "marketing",
   "devops", "backend", "frontend"].map String.toList

/-- `is_ambiguous(user_message)`: fewer than 4 word tokens, or a vague marker
present, or no job-domain marker present. -/
def is_ambiguous (user_message : Str) : Bool :=
  let tokens := wordTokens (pyLower user_message)
  if tokens.length < 4 then true
  else if tokens.any (fun t => vagueMarkers.contains t) then true
  else ! tokens.any (fun t => skillMarkers.contains t)

/-- Claim C3 as stated is false on the code: the query consisting of the four
words help, python, backend, developer has 4 tokens and contains the
job-domain markers backend and developer, yet `is_ambiguous` returns true,
because the vague marker help is checked first. -/
theorem C3_counterexample :
    (wordTokens (pyLower ('h' :: 'e' :: 'l' :: 'p' :: ' ' :: 'p' :: 'y' :: 't' :: 'h' :: 'o' :: 'n' :: ' ' :: 'b' :: 'a' :: 'c' :: 'k' :: 'e' :: 'n' :: 'd' :: ' ' :: 'd' :: 'e' :: 'v' :: 'e' :: 'l' :: 'o' :: 'p' :: 'e' :: 'r' :: []))).length = 4 ∧
    ((wordTokens (pyLower ('h' :: 'e' :: 'l' :: 'p' :: ' ' :: 'p' :: 'y' :: 't' :: 'h' :: 'o' :: 'n' :: ' ' :: 'b' :: 'a' :: 'c' :: 'k' :: 'e' :: 'n' :: 'd' :: ' ' :: 'd' :: 'e' :: 'v' :: 'e' :: 'l' :: 'o' :: 'p' :: 'e' :: 'r' :: []))).any (fun t => skillMarkers.contains t)) = true ∧
    is_ambiguous ('h' :: 'e' :: 'l' :: 'p' :: ' ' :: 'p' :: 'y' :: 't' :: 'h' :: 'o' :: 'n' :: ' ' :: 'b' :: 'a' :: 'c' :: 'k' :: 'e' :: 'n' :: 'd' :: ' ' :: 'd' :: 'e' :: 'v' :: 'e' :: 'l' :: 'o' :: 'p' :: 'e' :: 'r' :: []) = true := by
  decide

/-- Claim C3, amended: a query with at least 4 tokens, at least one job-domain
marker token, and no vague-marker token is not ambiguous; any query with
exactly 3 tokens (in particular any 3-word query, with or without markers) is
ambiguous. -/
theorem C3_is_ambiguous_amended :
    (∀ msg : Str,
      4 ≤ (wordTokens (pyLower msg)).length →
      (∀ t ∈ wordTokens (pyLower msg), t ∉ vagueMarkers) →
      (∃ t ∈ wordTokens (pyLower msg), t ∈ skillMarkers) →
      is_ambiguous msg = false) ∧
    (∀ msg : Str, (wordTokens (pyLower msg)).length = 3 → is_ambiguous msg = true) := by
  constructor
  · intro msg h4 hvague hskill
    unfold is_ambiguous
    have h1 : ¬ ((wordTokens (pyLower msg)).length < 4) := by omega
    simp [h1]
    exact ⟨hvague, hskill⟩
  · intro msg h3
    unfold is_ambiguous
    rw [if_pos (by omega)]

/-- Witness for the amended C3 theorem at concrete queries. -/
theorem C3_is_ambiguous_amended_witness :
    is_ambiguous ('p' :: 'y' :: 't' :: 'h' :: 'o' :: 'n' :: ' ' :: 'b' :: 'a' :: 'c' :: 'k' :: 'e' :: 'n' :: 'd' :: ' ' :: 'd' :: 'e' :: 'v' :: 'e' :: 'l' :: 'o' :: 'p' :: 'e' :: 'r' :: ' ' :: 'm' :: 'a' :: 'r' :: 'o' :: 'c' :: []) = false ∧
    is_ambiguous ('t' :: 'r' :: 'o' :: 'u' :: 'v' :: 'e' :: 'r' :: ' ' :: 'u' :: 'n' :: ' ' :: 'e' :: 'm' :: 'p' :: 'l' :: 'o' :: 'i' :: []) = true :=
  ⟨C3_is_ambiguous_amended.1 _ (by decide) (by decide) (by decide),
   C3_is_ambiguous_amended.2 _ (by decide)⟩

/-! ## C5 and C2: CVAnalyzer (src/backend/services/cv_analyzer.py) -/

/-- One skill-gap entry, as built by `identify_skill_gaps`. -/
structure SkillGap where
  skill_name : Str
  required_level : Str
  current_level : Str
  gap_severity : Str
  importance : Str
  suggestion : Str
deriving DecidableEq, Repr

/-- The skills tagged high in `identify_skill_gaps` (line 156). -/
def highGapSkills : List Str :=
  ["python", "javascript", "sql", "aws", "react", "java"].map String.toList

/-- The skills tagged medium in `identify_skill_gaps` (line 159). -/
def mediumGapSkills : List Str :=
  ["docker", "kubernetes", "typescript", "node.js", "machine learning"].map String.toList

/-- `identify_skill_gaps(cv_skills, job_skills)` from cv_analyzer.py lines
149-175: one entry per job skill not literally present in the CV skills, with
a three-level severity. -/
def identify_skill_gaps (cv_skills job_skills : List Str) : List SkillGap :=
  let missing_skills := job_skills.filter (fun s => ! cv_skills.contains s)
  missing_skills.map (fun skill =>
    let sev : Str × Str :=
      if highGapSkills.contains skill then ("high".toList, "Essentielle".toList)
      else if mediumGapSkills.contains skill then ("medium".toList, "Importante".toList)
      else ("low".toList, "Secondaire".toList)
    { skill_name := skill
      required_level := "Demandée dans l\x27offre".toList
      current_level := "Non présente dans le CV".toList
      gap_severity := sev.1
      importance := sev.2
      suggestion := "Considérez une formation en ".toList ++ skill })

/-- Claim C5 as stated is false on the code: with CV skills [js] and job
skills [javascript, aws], the code emits a gap for javascript (membership is
literal, not synonym-aware, so the synonym js does not count) and tags aws
high (it is in the code list python/javascript/sql/aws/react/java, not in
the claim list python/javascript/sql/java); moreover a missing skill outside
both fixed lists, such as html, is tagged low, not medium. -/
theorem C5_counterexample :
    (identify_skill_gaps ["js".toList] ["javascript".toList, "aws".toList]).map
        (fun g => (g.skill_name, g.gap_severity))
      = [("javascript".toList, "high".toList), ("aws".toList, "high".toList)] ∧
    (identify_skill_gaps [] ["html".toList]).map (fun g => g.gap_severity)
      = ["low".toList] := by
  decide

/-- Claim C5, amended: the gaps are exactly the job skills not literally
present in the CV skill list (in job order, duplicates preserved), and the
severity is high exactly for python/javascript/sql/aws/react/java, medium
exactly for docker/kubernetes/typescript/node.js/machine learning, and low
for every other missing skill. -/
theorem C5_identify_skill_gaps_amended :
    ∀ (cv_skills job_skills : List Str),
      ((identify_skill_gaps cv_skills job_skills).map (fun g => g.skill_name)
        = job_skills.filter (fun s => ! cv_skills.contains s)) ∧
      (∀ g ∈ identify_skill_gaps cv_skills job_skills,
        (g.gap_severity = "high".toList ↔ g.skill_name ∈ highGapSkills) ∧
        (g.gap_severity = "medium".toList ↔
          g.skill_name ∈ mediumGapSkills ∧ g.skill_name ∉ highGapSkills) ∧
        (g.gap_severity = "low".toList ↔
          g.skill_name ∉ highGapSkills ∧ g.skill_name ∉ mediumGapSkills)) := by
  intro cv job
  constructor
  · simp only [identify_skill_gaps, List.map_map]
    exact List.map_id _
  · intro g hg
    simp only [identify_skill_gaps, List.mem_map] at hg
    obtain ⟨s, hs, rfl⟩ := hg
    by_cases hh : highGapSkills.contains s
    · have hh' : s ∈ highGapSkills := by simpa using hh
      simp [hh, hh']
    · have hh' : s ∉ highGapSkills := by simpa using hh
      by_cases hm : mediumGapSkills.contains s
      · have hm' : s ∈ mediumGapSkills := by simpa using hm
        simp [hh, hm, hh', hm']
      · have hm' : s ∉ mediumGapSkills := by simpa using hm
        simp [hh, hm, hh', hm']

/-- Witness for the amended C5 theorem at a concrete input. -/
theorem C5_identify_skill_gaps_amended_witness :
    ((identify_skill_gaps ["python".toList] ["python".toList, "docker".toList, "html".toList]).map
        (fun g => g.skill_name)
      = ["docker".toList, "html".toList]) ∧
    ∀ g ∈ identify_skill_gaps ["python".toList] ["python".toList, "docker".toList, "html".toList],
      (g.gap_severity = "high".toList ↔ g.skill_name ∈ highGapSkills) ∧
      (g.gap_severity = "medium".toList ↔
        g.skill_name ∈ mediumGapSkills ∧ g.skill_name ∉ highGapSkills) ∧
      (g.gap_severity = "low".toList ↔
        g.skill_name ∉ highGapSkills ∧ g.skill_name ∉ mediumGapSkills) := by
  have h := C5_identify_skill_gaps_amended ["python".toList]
    ["python".toList, "docker".toList, "html".toList]
  exact ⟨by decide, h.2⟩

/-- The outcome record of `calculate_match_score_improved`.  The
`important_matches` key is only present in the skills-analysis branch, hence
the `Option`. -/
structure ScoreResult where
  final_score : ℚ
  method : Str
  cv_skills_count : ℕ
  job_skills_count : ℕ
  common_skills_count : ℕ
  coverage_percentage : ℚ
  important_matches : Option (List Str)
deriving DecidableEq, Repr

/-- Python `round` to an integer, modelled on exact rationals (round half to
even, as CPython does; no value used below sits on a rounding boundary). -/
def pyRoundInt (x : ℚ) : ℤ :=
  let f : ℤ := ⌊x⌋
  let r : ℚ := x - (f : ℚ)
  if r < 1/2 then f else if 1/2 < r then f + 1 else if f % 2 = 0 then f else f + 1

/-- Python `round(x, n)` on exact rationals. -/
def pyRound (q : ℚ) (n : ℕ) : ℚ := (pyRoundInt (q * 10 ^ n) : ℚ) / 10 ^ n

/-- The important-skill list of `calculate_match_score_improved` (line 124). -/
def important_skills : List Str :=
  ["python", "javascript", "java", "sql", "react", "aws", "docker",
   "machine learning"].map String.toList

/-- `calculate_match_score_improved(cv_skills, job_skills, cv_text, job_text)`
from cv_analyzer.py lines 93-147.  The TF-IDF cosine similarity of the two
texts is an external collaborator (scikit-learn); it enters as the oracle
argument `tfidf`, with `none` meaning that the vectorizer raised.
`common_skills` is the set intersection `set(cv_skills) & set(job_skills)`;
its iteration order is modelled as first occurrence in `job_skills` (only its
length and membership are observed by the theorems below). -/
def calculate_match_score_improved (cv_skills job_skills : List Str)
    (tfidf : Option ℚ) : ScoreResult :=
  match job_skills with
  | [] =>
    match tfidf with
    | some tfidf_score =>
      { final_score := pyRound tfidf_score 2
        method := "tfidf_fallback".toList
        cv_skills_count := cv_skills.length
        job_skills_count := 0
        common_skills_count := 0
        coverage_percentage := 0
        important_matches := none }
    | none =>
      { final_score := 0
        method := "no_skills_detected".toList
        cv_skills_count := cv_skills.length
        job_skills_count := 0
        common_skills_count := 0
        coverage_percentage := 0
        important_matches := none }
  | _ :: _ =>
    let common_skills := job_skills.dedup.filter (fun s => cv_skills.contains s)
    let coverage : ℚ := (common_skills.length : ℚ) / (job_skills.length : ℚ)
    let important_common := common_skills.filter (fun s => important_skills.contains s)
    let important_score : ℚ :=
      if job_skills.any (fun s => important_skills.contains s) then
        (important_common.length : ℚ) /
          ((job_skills.filter (fun s => important_skills.contains s)).length : ℚ)
      else 0
    let skill_based_score := coverage * 0.6 + important_score * 0.4
    let final_score : ℚ :=
      match tfidf with
      | some tfidf_score => skill_based_score * 0.7 + tfidf_score * 0.3
      | none => skill_based_score
    { final_score := pyRound final_score 2
      method := "skills_analysis".toList
      cv_skills_count := cv_skills.length
      job_skills_count := job_skills.length
      common_skills_count := common_skills.length
      coverage_percentage := pyRound (coverage * 100) 1
      important_matches := some important_common }

theorem common_skills_card (cv job : List Str) :
    (job.dedup.filter (fun s => cv.contains s)).length
      = (job.toFinset ∩ cv.toFinset).card := by
  rw [← List.toFinset_card_of_nodup (job.nodup_dedup.filter _)]
  congr 1
  ext x
  simp [List.mem_filter]

theorem important_common_card (cv job : List Str) :
    ((job.dedup.filter (fun s => cv.contains s)).filter
        (fun s => important_skills.contains s)).length
      = ((job.toFinset ∩ cv.toFinset) ∩ important_skills.toFinset).card := by
  rw [← List.toFinset_card_of_nodup ((job.nodup_dedup.filter _).filter _)]
  congr 1
  ext x
  simp [List.mem_filter, and_assoc]
  tauto

/-- Claim C2 as stated is false on the code: with CV skills [python], job
skills [python, docker] and TF-IDF similarity 0, the claimed formula
0.8·coverage + 0.2·tfidf gives 0.8·(1/2) = 0.4, but the code computes
skill_based = 0.6·coverage + 0.4·importance = 0.5 and then
final = 0.7·skill_based + 0.3·tfidf = 0.35. -/
theorem C2_counterexample :
    (calculate_match_score_improved ["python".toList]
        ["python".toList, "docker".toList] (some 0)).final_score = 0.35 ∧
    (0.8 * (1/2 : ℚ) + 0.2 * 0) = 0.4 ∧ (0.35 : ℚ) ≠ 0.4 := by
  refine ⟨?_, by norm_num, by norm_num⟩
  have e : (calculate_match_score_improved ["python".toList]
      ["python".toList, "docker".toList] (some 0)).final_score
      = pyRound (((1/2 : ℚ) * 0.6 + (1/2 : ℚ) * 0.4) * 0.7 + 0 * 0.3) 2 := by
    simp +decide [calculate_match_score_improved]
  rw [e]
  norm_num [pyRound, pyRoundInt]

/-- Claim C2, amended: with an empty job-skill list the result is the rounded
raw TF-IDF cosine similarity tagged tfidf_fallback (or 0.0 tagged
no_skills_detected when the vectorizer fails); with a non-empty job-skill
list the method is skills_analysis and the final score is
round2(0.7·(0.6·coverage + 0.4·importance) + 0.3·tfidf), where coverage is
the size of the literal (not synonym-aware) set intersection of CV and job
skills divided by the job-skill list length, and importance is the analogous
ratio over the fixed important-skill list (0 when the job lists none); when
the vectorizer fails the final score is round2 of the skill-based part
alone. -/
theorem C2_calculate_match_score_amended :
    ∀ (cv_skills job_skills : List Str) (t : ℚ),
      ((calculate_match_score_improved cv_skills [] (some t)).method = "tfidf_fallback".toList ∧
       (calculate_match_score_improved cv_skills [] (some t)).final_score = pyRound t 2 ∧
       (calculate_match_score_improved cv_skills [] none).method = "no_skills_detected".toList ∧
       (calculate_match_score_improved cv_skills [] none).final_score = 0) ∧
      (job_skills ≠ [] →
        (let coverage : ℚ :=
          ((job_skills.toFinset ∩ cv_skills.toFinset).card : ℚ) / (job_skills.length : ℚ)
        let important_score : ℚ :=
          if job_skills.any (fun s => important_skills.contains s) then
            (((job_skills.toFinset ∩ cv_skills.toFinset) ∩ important_skills.toFinset).card : ℚ) /
              ((job_skills.filter (fun s => important_skills.contains s)).length : ℚ)
          else 0
        (calculate_match_score_improved cv_skills job_skills (some t)).method
            = "skills_analysis".toList ∧
        (calculate_match_score_improved cv_skills job_skills (some t)).final_score
            = pyRound ((coverage * 0.6 + important_score * 0.4) * 0.7 + t * 0.3) 2 ∧
        (calculate_match_score_improved cv_skills job_skills none).final_score
            = pyRound (coverage * 0.6 + important_score * 0.4) 2)) := by
  intro cv job t
  refine ⟨⟨rfl, rfl, rfl, rfl⟩, ?_⟩
  intro hne
  match job, hne with
  | j :: js, _ =>
    rw [← common_skills_card cv (j :: js), ← important_common_card cv (j :: js)]
    exact ⟨rfl, rfl, rfl⟩

/-- Witness for the amended C2 theorem at concrete inputs. -/
theorem C2_calculate_match_score_amended_witness :
    (calculate_match_score_improved ["python".toList] [] (some (1/4))).method
        = "tfidf_fallback".toList ∧
    (calculate_match_score_improved ["python".toList]
        ["python".toList, "docker".toList] (some 0)).method = "skills_analysis".toList :=
  ⟨(C2_calculate_match_score_amended ["python".toList] ["docker".toList] (1/4)).1.1,
   ((C2_calculate_match_score_amended ["python".toList]
      ["python".toList, "docker".toList] 0).2 (by decide)).1⟩

/-! ## C6: JobMatcher.search_jobs (src/backend/services/matcher.py lines 67-89) -/

/-- Insert an index into a list ascending by similarity value (one step of the
stable ascending sort that models `np.argsort`; ties keep insertion order,
which no property below depends on). -/
def insertByValAsc (val : ℕ → ℚ) (i : ℕ) : List ℕ → List ℕ
  | [] => [i]
  | j :: l => if val i < val j then i :: j :: l else j :: insertByValAsc val i l

/-- Ascending argsort of the given index list by similarity value. -/
def argsortAsc (val : ℕ → ℚ) (idxs : List ℕ) : List ℕ :=
  idxs.foldr (insertByValAsc val) []

/-- Look up the cosine similarity of record `i` (`similarities[idx]`). -/
def getSim (sims : List ℚ) (i : ℕ) : ℚ := sims.getD i 0

/-- `search_jobs(query, top_k)` from matcher.py.  The vectorizer and the
cosine-similarity computation are external collaborators (scikit-learn /
numpy); the resulting per-record similarity vector enters as the oracle
argument `sims`.  The function returns the `top_k` highest-similarity
`(index, score)` pairs with score above 0.01, and the empty list for an
empty or whitespace-only query. -/
def search_jobs (query : Str) (sims : List ℚ) (top_k : ℕ) : List (ℕ × ℚ) :=
  if (pyStrip query).isEmpty then []
  else
    let top_indices := (argsortAsc (getSim sims) (List.range sims.length)).reverse.take top_k
    (top_indices.filter (fun i => decide (getSim sims i > 0.01))).map
      (fun i => (i, getSim sims i))

theorem mem_insertByValAsc (val : ℕ → ℚ) (i b : ℕ) (l : List ℕ) :
    b ∈ insertByValAsc val i l ↔ b = i ∨ b ∈ l := by
  induction l with
  | nil => simp [insertByValAsc]
  | cons j l ih =>
    simp only [insertByValAsc]
    split
    all_goals simp [List.mem_cons, ih]
    all_goals tauto

theorem insertByValAsc_pairwise (val : ℕ → ℚ) (i : ℕ) (l : List ℕ)
    (h : l.Pairwise (fun a b => val a ≤ val b)) :
    (insertByValAsc val i l).Pairwise (fun a b => val a ≤ val b) := by
  induction l with
  | nil => simp [insertByValAsc]
  | cons j l ih =>
    rw [List.pairwise_cons] at h
    obtain ⟨hj, hl⟩ := h
    simp only [insertByValAsc]
    split
    · rename_i hlt
      refine List.pairwise_cons.mpr ⟨?_, List.pairwise_cons.mpr ⟨hj, hl⟩⟩
      intro b hb
      rcases List.mem_cons.mp hb with rfl | hb
      · exact le_of_lt hlt
      · exact le_trans (le_of_lt hlt) (hj b hb)
    · rename_i hge
      refine List.pairwise_cons.mpr ⟨?_, ih hl⟩
      intro b hb
      rcases (mem_insertByValAsc val i b l).mp hb with rfl | hb
      · exact le_of_not_lt hge
      · exact hj b hb

theorem argsortAsc_pairwise (val : ℕ → ℚ) (idxs : List ℕ) :
    (argsortAsc val idxs).Pairwise (fun a b => val a ≤ val b) := by
  induction idxs with
  | nil => simp [argsortAsc]
  | cons i l ih => exact insertByValAsc_pairwise val i _ ih

/-- Claim C6, confirmed: `search_jobs` returns at most `top_k` pairs, every
returned score is strictly greater than 0.01 and is the similarity of the
returned index, the pairs are sorted by score descending, and an empty or
whitespace-only query yields the empty result. -/
theorem C6_search_jobs (query : Str) (sims : List ℚ) (top_k : ℕ) :
    (search_jobs query sims top_k).length ≤ top_k ∧
    (∀ p ∈ search_jobs query sims top_k, p.2 > 0.01 ∧ p.2 = getSim sims p.1) ∧
    (search_jobs query sims top_k).Pairwise (fun p q => q.2 ≤ p.2) ∧
    ((pyStrip query).isEmpty = true → search_jobs query sims top_k = []) := by
  by_cases hq : (pyStrip query).isEmpty
  · simp [search_jobs, hq]
  · have hdef : search_jobs query sims top_k
        = (((argsortAsc (getSim sims) (List.range sims.length)).reverse.take
            top_k).filter (fun i => decide (getSim sims i > 0.01))).map
          (fun i => (i, getSim sims i)) := by
      simp [search_jobs, hq]
    refine ⟨?_, ?_, ?_, ?_⟩
    · rw [hdef, List.length_map]
      exact le_trans (List.length_filter_le _ _) (List.length_take_le _ _)
    · intro p hp
      rw [hdef] at hp
      obtain ⟨i, hi, rfl⟩ := List.mem_map.mp hp
      have := (List.mem_filter.mp hi).2
      simp only [decide_eq_true_eq] at this
      exact ⟨this, rfl⟩
    · rw [hdef, List.pairwise_map]
      have h1 : ((argsortAsc (getSim sims) (List.range sims.length)).reverse).Pairwise
          (fun a b => getSim sims b ≤ getSim sims a) := by
        rw [List.pairwise_reverse]
        exact argsortAsc_pairwise _ _
      have h2 := h1.sublist (List.take_sublist top_k _)
      exact h2.sublist (List.filter_sublist _)
    · intro h
      exact absurd h hq

/-- Witness for C6 at a concrete whitespace-only query. -/
theorem C6_search_jobs_witness : search_jobs [' '] [(1 : ℚ) / 2] 3 = [] :=
  (C6_search_jobs [' '] [(1 : ℚ) / 2] 3).2.2.2 (by decide)

/-! ## C8: employment and education ordering in
src/backend/utils/ats_template_processor.py (map_parsed_to_template_optimized
lines 102-158 and map_parsed_to_template_full lines 233-288; both use the
same sort keys). -/

theorem strLt_asymm : ∀ {s t : Str}, strLt s t = true → strLt t s = false
  | [], [], h => by simp [strLt] at h
  | [], _ :: _, _ => by simp [strLt]
  | _ :: _, [], h => by simp [strLt] at h
  | a :: s, b :: t, h => by
    simp only [strLt] at h ⊢
    by_cases h1 : a.toNat < b.toNat
    · have h2 : ¬ b.toNat < a.toNat := by omega
      simp [h1, h2]
    · by_cases h2 : b.toNat < a.toNat
      · simp [h1, h2] at h
      · simp only [h1, h2, if_false] at h ⊢
        exact strLt_asymm h

theorem strLt_false_trans :
    ∀ (a b c : Str), strLt a b = false → strLt b c = false → strLt a c = false
  | a, _, [], _, _ => by cases a <;> simp [strLt]
  | _, [], _ :: _, _, h2 => by simp [strLt] at h2
  | [], _ :: _, _ :: _, h1, _ => by simp [strLt] at h1
  | a0 :: a, b0 :: b, c0 :: c, h1, h2 => by
    simp only [strLt] at h1 h2 ⊢
    by_cases hab : a0.toNat < b0.toNat
    · simp [hab] at h1
    · by_cases hbc : b0.toNat < c0.toNat
      · simp [hbc] at h2
      · by_cases hac : a0.toNat < c0.toNat
        · omega
        · by_cases hca : c0.toNat < a0.toNat
          · simp [hac, hca]
          · have hba : ¬ b0.toNat < a0.toNat := by omega
            have hcb : ¬ c0.toNat < b0.toNat := by omega
            simp only [hab, hba, if_false] at h1
            simp only [hbc, hcb, if_false] at h2
            simp only [hac, hca, if_false]
            exact strLt_false_trans a b c h1 h2

/-- One step of Python's stable sort, modelled as insertion: `x` moves ahead
of exactly the elements it strictly precedes, so equal-key elements keep
their original order. -/
def insStable (lt : α → α → Bool) (x : α) : List α → List α
  | [] => [x]
  | y :: l => if lt x y then x :: y :: l else y :: insStable lt x l

/-- Python `sorted(l, key=...)` (with `reverse` folded into `lt`). -/
def sortStable (lt : α → α → Bool) (l : List α) : List α :=
  l.foldl (fun acc x => insStable lt x acc) []

theorem mem_insStable (lt : α → α → Bool) (x b : α) (l : List α) :
    b ∈ insStable lt x l ↔ b = x ∨ b ∈ l := by
  induction l with
  | nil => simp [insStable]
  | cons y l ih =>
    simp only [insStable]
    split
    all_goals simp [List.mem_cons, ih]
    all_goals tauto

theorem insStable_pairwise (lt : α → α → Bool)
    (hasymm : ∀ a b, lt a b = true → lt b a = false)
    (htrans : ∀ a b c, lt b a = false → lt c b = false → lt c a = false)
    (x : α) (l : List α) (h : l.Pairwise (fun a b => lt b a = false)) :
    (insStable lt x l).Pairwise (fun a b => lt b a = false) := by
  induction l with
  | nil => simp [insStable]
  | cons y l ih =>
    rw [List.pairwise_cons] at h
    obtain ⟨hy, hl⟩ := h
    simp only [insStable]
    split
    · rename_i hxy
      refine List.pairwise_cons.mpr ⟨?_, List.pairwise_cons.mpr ⟨hy, hl⟩⟩
      intro b hb
      rcases List.mem_cons.mp hb with rfl | hb
      · exact hasymm x b hxy
      · exact htrans x y b (hasymm x y hxy) (hy b hb)
    · rename_i hxy
      refine List.pairwise_cons.mpr ⟨?_, ih hl⟩
      intro b hb
      rcases (mem_insStable lt x b l).mp hb with rfl | hb
      · exact Bool.eq_false_iff.mpr (fun e => by simp [e] at hxy)
      · exact hy b hb

theorem mem_sortStable (lt : α → α → Bool) (b : α) (l : List α) :
    b ∈ sortStable lt l ↔ b ∈ l := by
  suffices h : ∀ (l acc : List α),
      (b ∈ l.foldl (fun acc x => insStable lt x acc) acc ↔ b ∈ acc ∨ b ∈ l) by
    have := h l []
    simpa [sortStable] using this
  intro l
  induction l with
  | nil => simp
  | cons x l ih =>
    intro acc
    simp only [List.foldl_cons, ih, mem_insStable, List.mem_cons]
    tauto

theorem sortStable_pairwise (lt : α → α → Bool)
    (hasymm : ∀ a b, lt a b = true → lt b a = false)
    (htrans : ∀ a b c, lt b a = false → lt c b = false → lt c a = false)
    (l : List α) :
    (sortStable lt l).Pairwise (fun a b => lt b a = false) := by
  suffices h : ∀ (l acc : List α), acc.Pairwise (fun a b => lt b a = false) →
      (l.foldl (fun acc x => insStable lt x acc) acc).Pairwise
        (fun a b => lt b a = false) from
    h l [] (by simp)
  intro l
  induction l with
  | nil => exact fun acc h => h
  | cons x l ih =>
    intro acc hacc
    exact ih _ (insStable_pairwise lt hasymm htrans x acc hacc)

/-- One employment-history entry as read by the experience sort.  Only the
fields the sort and the claim inspect are modelled; a missing `end_date`
key behaves like Python's `dict.get` default `"Present"`. -/
structure EmpEntry where
  title : Str
  company : Str
  end_date : Option Str
deriving DecidableEq, Repr

/-- The string "Present". -/
def presentStr : Str := "Present".toList

/-- The sentinel sort key "9999-12-31" used for open-ended jobs. -/
def sentinelDate : Str := "9999-12-31".toList

/-- The experience sort key:
`x.get('end_date', 'Present') if x.get('end_date', 'Present') != 'Present'
else '9999-12-31'`. -/
def expKey (j : EmpEntry) : Str :=
  let e := j.end_date.getD presentStr
  if e ≠ presentStr then e else sentinelDate

/-- The experience sort of both template mappings:
`sorted(employment_history, key=..., reverse=True)`, stable descending by
`expKey` under Python string comparison. -/
def sorted_experience (l : List EmpEntry) : List EmpEntry :=
  sortStable (fun a b => strLt (expKey b) (expKey a)) l

/-- One education entry as read by the education sort. -/
structure EduEntry where
  degree : Str
  institution_name : Str
deriving DecidableEq, Repr

/-- The fixed degree-priority dictionary (lines 146-151). -/
def education_priority : List (Str × ℕ) :=
  [("phd".toList, 1), ("doctorate".toList, 1),
   ("master".toList, 2), ("masters".toList, 2), ("msc".toList, 2), ("ma".toList, 2),
   ("bachelor".toList, 3), ("bachelors".toList, 3), ("bs".toList, 3), ("ba".toList, 3),
   ("associate".toList, 4), ("diploma".toList, 5), ("certificate".toList, 6)]

/-- The first whitespace-separated word of a string
(`s.split()[0]`); `none` when the string has no word, in which case Python
raises IndexError. -/
def firstWord (s : Str) : Option Str :=
  let w := (s.dropWhile pyIsSpace).takeWhile (fun c => ! pyIsSpace c)
  if w.isEmpty then none else some w

/-- The education sort key
`education_priority.get(x.get('degree', '').lower().split()[0], 99)`;
`none` models the IndexError raised on an empty degree. -/
def eduKey (e : EduEntry) : Option ℕ :=
  (firstWord (pyLower e.degree)).map (fun w =>
    ((education_priority.find? (fun p => p.1 = w)).map Prod.snd).getD 99)

/-- Python's `sorted` computes every key first (decorate) and then sorts;
a key error aborts the whole sort. -/
def decorateEdu : List EduEntry → Option (List (ℕ × EduEntry))
  | [] => some []
  | e :: l =>
    match eduKey e, decorateEdu l with
    | some k, some kl => some ((k, e) :: kl)
    | _, _ => none

/-- The education sort of both template mappings:
`sorted(education_data, key=...)`, stable ascending by priority; `none` when
some entry's degree has no first word (Python raises IndexError there). -/
def sorted_education (l : List EduEntry) : Option (List EduEntry) :=
  (decorateEdu l).map
    (fun kl => (sortStable (fun a b => decide (a.1 < b.1)) kl).map Prod.snd)

/-- A degree detected as PhD/Doctorate: its first word maps to priority 1. -/
def isDoctorDeg (e : EduEntry) : Prop :=
  firstWord (pyLower e.degree) = some "phd".toList ∨
  firstWord (pyLower e.degree) = some "doctorate".toList

/-- A degree detected as Bachelor: its first word maps to priority 3. -/
def isBachelorDeg (e : EduEntry) : Prop :=
  firstWord (pyLower e.degree) = some "bachelor".toList ∨
  firstWord (pyLower e.degree) = some "bachelors".toList ∨
  firstWord (pyLower e.degree) = some "bs".toList ∨
  firstWord (pyLower e.degree) = some "ba".toList

theorem decorateEdu_mem : ∀ (l : List EduEntry) (kl : List (ℕ × EduEntry)),
    decorateEdu l = some kl → ∀ p ∈ kl, eduKey p.2 = some p.1 := by
  intro l
  induction l with
  | nil =>
    intro kl h p hp
    simp only [decorateEdu] at h
    cases h
    cases hp
  | cons e l ih =>
    intro kl h p hp
    simp only [decorateEdu] at h
    cases hk : eduKey e with
    | none => rw [hk] at h; cases h
    | some k =>
      rw [hk] at h
      cases hd : decorateEdu l with
      | none => rw [hd] at h; cases h
      | some kl0 =>
        rw [hd] at h
        cases h
        rcases List.mem_cons.mp hp with rfl | hp
        · exact hk
        · exact ih kl0 hd p hp

/-- Claim C8 as stated is false on the code: the entry with concrete end date
"Dec 2023" ranks above the open-ended ("Present") entry, because "Present" is
replaced by the sentinel key "9999-12-31" and the sort compares keys as
strings, so any end date starting with a letter exceeds the sentinel. -/
theorem C8_counterexample :
    sorted_experience
        [⟨"Engineer".toList, "ACME".toList, some presentStr⟩,
         ⟨"Dev".toList, "Foo".toList, some "Dec 2023".toList⟩]
      = [⟨"Dev".toList, "Foo".toList, some "Dec 2023".toList⟩,
         ⟨"Engineer".toList, "ACME".toList, some presentStr⟩] ∧
    strLt sentinelDate "Dec 2023".toList = true := by decide

/-- Claim C8, amended: in the sorted employment history an entry whose end
date is "Present" (or missing) ranks above every entry whose end-date string
is lexicographically smaller than the sentinel "9999-12-31" — in particular
every numeric ISO date — but not necessarily above end dates that compare
greater than the sentinel (e.g. ones starting with a letter); and in the
sorted education list an entry whose degree's first word is phd or doctorate
ranks above every entry whose degree's first word is bachelor, bachelors, bs
or ba, provided the education sort completes at all (every degree must have a
non-empty first word, otherwise the sort key raises IndexError). -/
theorem C8_template_ordering_amended :
    (∀ l : List EmpEntry,
      (sorted_experience l).Pairwise (fun a b =>
        b.end_date.getD presentStr = presentStr →
        strLt (expKey a) sentinelDate = true → False)) ∧
    (∀ (l out : List EduEntry),
      sorted_education l = some out →
      out.Pairwise (fun a b => isBachelorDeg a → isDoctorDeg b → False)) := by
  constructor
  · intro l
    have h := sortStable_pairwise (fun a b => strLt (expKey b) (expKey a))
      (fun a b hab => strLt_asymm hab)
      (fun a b c h1 h2 => strLt_false_trans (expKey a) (expKey b) (expKey c) h1 h2)
      l
    refine h.imp ?_
    intro a b hS hbp hak
    have hkb : expKey b = sentinelDate := by simp [expKey, hbp]
    rw [hkb] at hS
    simp [hS] at hak
  · intro l out hout
    obtain ⟨kl, hkl, rfl⟩ := Option.map_eq_some'.mp hout
    have hmem := decorateEdu_mem l kl hkl
    have hs := sortStable_pairwise (fun a b : ℕ × EduEntry => decide (a.1 < b.1))
      (by intro a b h; simp at h ⊢; omega)
      (by intro a b c h1 h2; simp at h1 h2 ⊢; omega)
      kl
    rw [List.pairwise_map]
    have hsub : ∀ p ∈ sortStable (fun a b : ℕ × EduEntry => decide (a.1 < b.1)) kl,
        eduKey p.2 = some p.1 :=
      fun p hp => hmem p ((mem_sortStable _ p kl).mp hp)
    refine List.Pairwise.imp_of_mem ?_ hs
    intro x y hx hy hS hbach hdoc
    have hkx := hsub x hx
    have hky := hsub y hy
    have h3 : eduKey x.2 = some 3 := by
      rcases hbach with h | h | h | h <;> simp +decide [eduKey, h, education_priority]
    have h1 : eduKey y.2 = some 1 := by
      rcases hdoc with h | h <;> simp +decide [eduKey, h, education_priority]
    rw [hkx] at h3
    rw [hky] at h1
    injection h3 with h3
    injection h1 with h1
    simp only [decide_eq_false_iff_not] at hS
    omega

/-- Witness for the amended C8 theorem at concrete inputs. -/
theorem C8_template_ordering_amended_witness :
    (sorted_experience
        [⟨"A".toList, "B".toList, some "2020-01-01".toList⟩,
         ⟨"C".toList, "D".toList, some presentStr⟩]).Pairwise (fun a b =>
        b.end_date.getD presentStr = presentStr →
        strLt (expKey a) sentinelDate = true → False) ∧
    ([⟨"PhD Computer Science".toList, "MIT".toList⟩,
      ⟨"Bachelor of Arts".toList, "X".toList⟩] :
        List EduEntry).Pairwise (fun a b => isBachelorDeg a → isDoctorDeg b → False) :=
  ⟨C8_template_ordering_amended.1 _,
   C8_template_ordering_amended.2
     [⟨"Bachelor of Arts".toList, "X".toList⟩, ⟨"PhD Computer Science".toList, "MIT".toList⟩]
     [⟨"PhD Computer Science".toList, "MIT".toList⟩, ⟨"Bachelor of Arts".toList, "X".toList⟩]
     (by decide)⟩

/-! ## C4: GeminiATSEvaluator validate-structure
(src/backend/services/gemini_ats_evaluator.py lines 190-223) -/

/-- A parsed JSON value as produced by json.loads.  Objects are
insertion-ordered association lists (json.loads keeps one entry per key). -/
inductive Json where
  | null : Json
  | bool : Bool → Json
  | num : Int → Json
  | str : Str → Json
  | arr : List Json → Json
  | obj : List (Str × Json) → Json

/-- A JSON object body. -/
abbrev JsonDict := List (Str × Json)

/-- Python dict key lookup on a string-keyed association list. -/
def jLookup {β : Type} (k : Str) : List (Str × β) → Option β
  | [] => none
  | (k0, v) :: d => if k0 = k then some v else jLookup k d

/-- Python `d[k] = v`: update the existing slot, or append a new key. -/
def jSet {β : Type} (k : Str) (v : β) : List (Str × β) → List (Str × β)
  | [] => [(k, v)]
  | (k0, v0) :: d => if k0 = k then (k, v) :: d else (k0, v0) :: jSet k v d

/-- Whether a JSON value is an object. -/
def Json.isObj : Json → Bool
  | Json.obj _ => true
  | _ => false

/-- The key "Positives". -/
def positivesKey : Str := "Positives".toList

/-- The key "Negatives". -/
def negativesKey : Str := "Negatives".toList

/-- The key "ATS_Score". -/
def atsScoreKey : Str := "ATS_Score".toList

/-- Python `w == element` for a string `w` against a JSON array element. -/
def arrContainsStr (w : Str) : List Json → Bool
  | [] => false
  | Json.str s :: l => s = w || arrContainsStr w l
  | _ :: l => arrContainsStr w l

/-- Python `w in v` for a string `w` and a JSON value `v`: key membership for
objects, substring for strings, element equality for arrays, TypeError
otherwise. -/
def jsonContainsStr (w : Str) : Json → Except Str Bool
  | Json.obj fields => Except.ok (jLookup w fields).isSome
  | Json.str s => Except.ok (containsSub w s)
  | Json.arr l => Except.ok (arrContainsStr w l)
  | _ => Except.error "TypeError".toList

/-- Python `v[w] = x`: only objects support string-keyed assignment. -/
def jsonSetKey (w : Str) (x : Json) : Json → Except Str Json
  | Json.obj fields => Except.ok (Json.obj (jSet w x fields))
  | _ => Except.error "TypeError".toList

/-- One `if w not in v: v[w] = []` step of the repair. -/
def ensureSub (w : Str) (v : Json) : Except Str Json :=
  match jsonContainsStr w v with
  | Except.error e => Except.error e
  | Except.ok c => if c then Except.ok v else jsonSetKey w (Json.arr []) v

/-- The 14 fixed category names (lines 192-207). -/
def required_categories : List Str :=
  ["Contact Information", "Spelling & Grammar", "Personal Pronoun Usage",
   "Skills & Keyword Targeting", "Complex or Long Sentences",
   "Generic or Weak Phrases", "Passive Voice Usage", "Quantified Achievements",
   "Required Resume Sections", "AI-generated Language", "Repeated Action Verbs",
   "Visual Formatting or Readability", "Personal Information / Bias Triggers",
   "Other Strengths and Weaknesses"].map String.toList

/-- The per-category body of the repair loop (lines 214-221). -/
def processCategory (d : JsonDict) (c : Str) : Except Str JsonDict :=
  match jLookup c d with
  | none =>
    Except.ok (jSet c (Json.obj [(positivesKey, Json.arr []),
      (negativesKey, Json.arr [])]) d)
  | some v =>
    match ensureSub positivesKey v with
    | Except.error e => Except.error e
    | Except.ok v1 =>
      match ensureSub negativesKey v1 with
      | Except.error e => Except.error e
      | Except.ok v2 => Except.ok (jSet c v2 d)

/-- The repair loop over the category list. -/
def processCategories : List Str → JsonDict → Except Str JsonDict
  | [], d => Except.ok d
  | c :: cs, d =>
    match processCategory d c with
    | Except.error e => Except.error e
    | Except.ok d1 => processCategories cs d1

/-- `_validate_structure(data)`: default `ATS_Score` to 0 when absent, then
repair each of the 14 categories.  A Python exception (TypeError from a
non-object category value of the wrong shape) is modelled as `Except.error`. -/
def validate_structure (data : JsonDict) : Except Str JsonDict :=
  let data1 :=
    if (jLookup atsScoreKey data).isSome then data
    else jSet atsScoreKey (Json.num 0) data
  processCategories required_categories data1

/-- Whether the repaired output maps category `c` to an object carrying both
the Positives and the Negatives key. -/
def repairedCategoryOk (e : Except Str JsonDict) (c : Str) : Bool :=
  match e with
  | Except.error _ => false
  | Except.ok d =>
    match jLookup c d with
    | some (Json.obj f) =>
      (jLookup positivesKey f).isSome && (jLookup negativesKey f).isSome
    | _ => false

/-- Whether an optional category value is absent or an object. -/
def optIsObjOrNone : Option Json → Bool
  | none => true
  | some v => v.isObj

theorem jLookup_jSet_self {β : Type} (k : Str) (v : β) (d : List (Str × β)) :
    jLookup k (jSet k v d) = some v := by
  induction d with
  | nil => simp [jSet, jLookup]
  | cons p d ih =>
    obtain ⟨k0, v0⟩ := p
    simp only [jSet]
    split
    · simp [jLookup]
    · rename_i hne
      simp only [jLookup, if_neg hne]
      exact ih

theorem jLookup_jSet_ne {β : Type} (k k1 : Str) (v : β) (d : List (Str × β)) (h : k1 ≠ k) :
    jLookup k1 (jSet k v d) = jLookup k1 d := by
  have h0 : ¬ k = k1 := fun e => h e.symm
  induction d with
  | nil => simp [jSet, jLookup, h0]
  | cons p d ih =>
    obtain ⟨k0, v0⟩ := p
    simp only [jSet]
    split
    · rename_i he
      subst he
      simp [jLookup, h0]
    · simp only [jLookup]
      split
      · rfl
      · exact ih

theorem ensureSub_obj (w : Str) (f : JsonDict) :
    ∃ f1, ensureSub w (Json.obj f) = Except.ok (Json.obj f1) ∧
      (jLookup w f1).isSome = true ∧
      ∀ k, k ≠ w → jLookup k f1 = jLookup k f := by
  by_cases hw : (jLookup w f).isSome
  · exact ⟨f, by simp [ensureSub, jsonContainsStr, hw], hw, fun k _ => rfl⟩
  · refine ⟨jSet w (Json.arr []) f, ?_, ?_, ?_⟩
    · simp [ensureSub, jsonContainsStr, hw, jsonSetKey]
    · rw [jLookup_jSet_self]
      rfl
    · intro k hk
      exact jLookup_jSet_ne w k _ f hk

theorem processCategory_ok (d : JsonDict) (c : Str)
    (h : optIsObjOrNone (jLookup c d) = true) :
    ∃ d1, processCategory d c = Except.ok d1 ∧
      (∃ f, jLookup c d1 = some (Json.obj f) ∧
        (jLookup positivesKey f).isSome = true ∧
        (jLookup negativesKey f).isSome = true) ∧
      (∀ k, k ≠ c → jLookup k d1 = jLookup k d) := by
  cases hc : jLookup c d with
  | none =>
    refine ⟨jSet c (Json.obj [(positivesKey, Json.arr []),
        (negativesKey, Json.arr [])]) d,
      by simp [processCategory, hc],
      ⟨[(positivesKey, Json.arr []), (negativesKey, Json.arr [])],
        jLookup_jSet_self c _ d, by decide, by decide⟩, ?_⟩
    intro k hk
    exact jLookup_jSet_ne c k _ d hk
  | some v =>
    rw [hc] at h
    cases v with
    | obj f =>
      obtain ⟨f1, h1, hp1, hrest1⟩ := ensureSub_obj positivesKey f
      obtain ⟨f2, h2, hn2, hrest2⟩ := ensureSub_obj negativesKey f1
      refine ⟨jSet c (Json.obj f2) d, ?_, ⟨f2, jLookup_jSet_self c _ d, ?_, hn2⟩, ?_⟩
      · simp [processCategory, hc, h1, h2]
      · rw [hrest2 _ (by decide)]
        exact hp1
      · intro k hk
        exact jLookup_jSet_ne c k _ d hk
    | null => simp [optIsObjOrNone, Json.isObj] at h
    | bool b => simp [optIsObjOrNone, Json.isObj] at h
    | num n => simp [optIsObjOrNone, Json.isObj] at h
    | str s => simp [optIsObjOrNone, Json.isObj] at h
    | arr l => simp [optIsObjOrNone, Json.isObj] at h

theorem processCategories_ok : ∀ (cs : List Str) (d : JsonDict),
    cs.Nodup →
    (∀ c ∈ cs, optIsObjOrNone (jLookup c d) = true) →
    ∃ d2, processCategories cs d = Except.ok d2 ∧
      (∀ c ∈ cs, ∃ f, jLookup c d2 = some (Json.obj f) ∧
        (jLookup positivesKey f).isSome = true ∧
        (jLookup negativesKey f).isSome = true) ∧
      (∀ k, k ∉ cs → jLookup k d2 = jLookup k d) := by
  intro cs
  induction cs with
  | nil =>
    intro d _ _
    refine ⟨d, rfl, ?_, fun k _ => rfl⟩
    intro c hc
    exact absurd hc (List.not_mem_nil c)
  | cons c cs ih =>
    intro d hnd hobj
    obtain ⟨d1, hd1, ⟨f, hf, hfp, hfn⟩, hpres⟩ :=
      processCategory_ok d c (hobj c (List.mem_cons_self c cs))
    rw [List.nodup_cons] at hnd
    obtain ⟨hcn, hnd⟩ := hnd
    have hobj1 : ∀ c1 ∈ cs, optIsObjOrNone (jLookup c1 d1) = true := by
      intro c1 hc1
      rw [hpres c1 (fun e => hcn (e ▸ hc1))]
      exact hobj c1 (List.mem_cons_of_mem c hc1)
    obtain ⟨d2, hd2, hgood, hpres2⟩ := ih d1 hnd hobj1
    refine ⟨d2, ?_, ?_, ?_⟩
    · simp [processCategories, hd1, hd2]
    · intro c1 hc1
      rcases List.mem_cons.mp hc1 with rfl | hc1
      · exact ⟨f, by rw [hpres2 c1 hcn]; exact hf, hfp, hfn⟩
      · exact hgood c1 hc1
    · intro k hk
      rw [List.mem_cons] at hk
      push_neg at hk
      rw [hpres2 k hk.2, hpres k hk.1]

/-- Claim C4 as stated is false on the code: when the model returns the
category value "PositivesNegatives" (a string containing both sub-key names
as substrings), the repair's `in` checks succeed by substring matching, so
the value is left as a string; the repaired evaluation then maps Contact
Information to a string rather than to an object holding a Positives list
and a Negatives list.  (Other non-object shapes make the repair raise a
TypeError instead.) -/
theorem C4_counterexample :
    (validate_structure [("Contact Information".toList,
        Json.str "PositivesNegatives".toList)]).isOk = true ∧
    repairedCategoryOk
      (validate_structure [("Contact Information".toList,
        Json.str "PositivesNegatives".toList)])
      "Contact Information".toList = false := by
  decide

/-- Claim C4, amended: for every JSON object in which each of the 14 category
keys, where present, maps to a JSON object, the repair succeeds and its
output maps every one of the 14 categories to an object carrying both the
Positives and the Negatives key (defaulting omitted ones to empty lists),
contains ATS_Score (0 when the input lacked it), and leaves every other key
unchanged.  For category values of non-object shape the repair either raises
a TypeError or leaves the value unrepaired, as the counterexample shows. -/
theorem C4_validate_structure_amended :
    ∀ data : JsonDict,
      (∀ c ∈ required_categories, optIsObjOrNone (jLookup c data) = true) →
      ∃ out, validate_structure data = Except.ok out ∧
        (∀ c ∈ required_categories, ∃ f, jLookup c out = some (Json.obj f) ∧
          (jLookup positivesKey f).isSome = true ∧
          (jLookup negativesKey f).isSome = true) ∧
        (jLookup atsScoreKey data = none →
          jLookup atsScoreKey out = some (Json.num 0)) ∧
        (∀ k, k ∉ required_categories → k ≠ atsScoreKey →
          jLookup k out = jLookup k data) := by
  intro data hobj
  have hats : ∀ c ∈ required_categories, c ≠ atsScoreKey := by decide
  by_cases hscore : (jLookup atsScoreKey data).isSome
  · obtain ⟨out, hout, hgood, hpres⟩ :=
      processCategories_ok required_categories data (by decide) hobj
    refine ⟨out, ?_, hgood, ?_, ?_⟩
    · simp [validate_structure, hscore, hout]
    · intro habs
      rw [habs] at hscore
      simp at hscore
    · intro k hk _
      exact hpres k hk
  · have hobj1 : ∀ c ∈ required_categories,
        optIsObjOrNone (jLookup c (jSet atsScoreKey (Json.num 0) data)) = true := by
      intro c hc
      rw [jLookup_jSet_ne _ _ _ _ (hats c hc)]
      exact hobj c hc
    obtain ⟨out, hout, hgood, hpres⟩ :=
      processCategories_ok required_categories
        (jSet atsScoreKey (Json.num 0) data) (by decide) hobj1
    refine ⟨out, ?_, hgood, ?_, ?_⟩
    · simp [validate_structure, hscore, hout]
    · intro _
      rw [hpres _ (by decide)]
      exact jLookup_jSet_self _ _ data
    · intro k hk hkats
      rw [hpres k hk]
      exact jLookup_jSet_ne _ _ _ _ hkats

/-- Witness for the amended C4 theorem on the empty object. -/
theorem C4_validate_structure_amended_witness :
    ∃ out, validate_structure [] = Except.ok out ∧
      (∀ c ∈ required_categories, ∃ f, jLookup c out = some (Json.obj f) ∧
        (jLookup positivesKey f).isSome = true ∧
        (jLookup negativesKey f).isSome = true) ∧
      (jLookup atsScoreKey ([] : JsonDict) = none →
        jLookup atsScoreKey out = some (Json.num 0)) ∧
      (∀ k, k ∉ required_categories → k ≠ atsScoreKey →
        jLookup k out = jLookup k ([] : JsonDict)) :=
  C4_validate_structure_amended [] (by decide)

/-! ## C7: generate_search_queries (src/backend/services/assistant.py lines
98-158) together with the LinkGenerator URLs it attaches
(src/backend/utils/link_generator.py). -/

/-- UTF-8 bytes of a character. -/
def utf8Bytes (c : Char) : List ℕ :=
  let n := c.toNat
  if n < 0x80 then [n]
  else if n < 0x800 then [0xC0 + n / 64, 0x80 + n % 64]
  else if n < 0x10000 then [0xE0 + n / 4096, 0x80 + n / 64 % 64, 0x80 + n % 64]
  else [0xF0 + n / 262144, 0x80 + n / 4096 % 64, 0x80 + n / 64 % 64, 0x80 + n % 64]

/-- An uppercase hexadecimal digit. -/
def hexDigit (n : ℕ) : Char :=
  if n < 10 then Char.ofNat ('0'.toNat + n) else Char.ofNat ('A'.toNat + n - 10)

/-- A percent-encoded byte. -/
def pctEncodeByte (b : ℕ) : Str := ['%', hexDigit (b / 16), hexDigit (b % 16)]

/-- Characters `urllib.parse.quote` leaves unescaped with its default
`safe="/"`: ASCII alphanumerics, `_ . - ~` and the slash. -/
def quoteSafe (c : Char) : Bool :=
  c.isAlphanum || c = '_' || c = '.' || c = '-' || c = '~' || c = '/'

/-- Characters `urllib.parse.quote_plus` leaves unescaped. -/
def quotePlusSafe (c : Char) : Bool :=
  c.isAlphanum || c = '_' || c = '.' || c = '-' || c = '~'

/-- `urllib.parse.quote(s)`. -/
def pyQuote (s : Str) : Str :=
  (s.map (fun c => if quoteSafe c then [c]
    else List.flatten ((utf8Bytes c).map pctEncodeByte))).join

/-- `urllib.parse.quote_plus(s)`: like quote with no safe characters, with
the space encoded as `+`. -/
def pyQuotePlus (s : Str) : Str :=
  (s.map (fun c =>
    if c = ' ' then ['+']
    else if quotePlusSafe c then [c]
    else List.flatten ((utf8Bytes c).map pctEncodeByte))).join

/-- `LinkGenerator.generate_google_url(job_title, location)`. -/
def generate_google_url (job_title location : Str) : Str :=
  "https://www.google.com/search?q=".toList
    ++ pyQuote (job_title ++ " jobs in ".toList ++ location)
    ++ "&ibp=htl;jobs".toList

/-- `LinkGenerator.generate_indeed_url(job_title, location)`. -/
def generate_indeed_url (job_title location : Str) : Str :=
  "https://ma.indeed.com/jobs?q=".toList ++ pyQuote job_title
    ++ "&l=".toList ++ pyQuote location

/-- `LinkGenerator.generate_linkedin_url(job_title, location)`. -/
def generate_linkedin_url (job_title location : Str) : Str :=
  "https://www.linkedin.com/jobs/search/?keywords=".toList
    ++ pyQuotePlus job_title ++ "&location=".toList ++ pyQuotePlus location

/-- `LinkGenerator.generate_stagiaires_url(job_title)`. -/
def generate_stagiaires_url (job_title : Str) : Str :=
  "https://www.stagiaires.ma/candidat/offres/?query=".toList ++ pyQuote job_title

/-- `LinkGenerator.generate_rekrute_url(job_title)`. -/
def generate_rekrute_url (job_title : Str) : Str :=
  "https://www.rekrute.com/offres.html?st=d&keywordNew=1&jobLocation=RK&tagSearchKey=&keyword=".toList
    ++ pyQuotePlus job_title

/-- An intent pattern: a plain substring, or a literal that must be followed
by at least one word character (modelling the regexes with a `(\w+)` group). -/
inductive Pat where
  | lit : Str → Pat
  | litWord : Str → Pat

/-- Whether `p` matches at the very start of `s`, followed by a word char. -/
def litWordAt (p s : Str) : Bool :=
  match dropIfPre p s with
  | some (c :: _) => isWordChar c
  | _ => false

/-- Whether `p` followed by a word character occurs anywhere in `s`. -/
def litWordMatch (p : Str) : Str → Bool
  | [] => litWordAt p []
  | s@(_ :: t) => litWordAt p s || litWordMatch p t

/-- `re.search(pattern, message)` viewed as a Boolean. -/
def patMatches (m : Str) : Pat → Bool
  | Pat.lit p => containsSub p m
  | Pat.litWord p => litWordMatch p m

/-- `re.search(p + r"(\w+)", s).group(1)`: the maximal word-character run
after the first occurrence of `p` that is followed by a word character. -/
def extractAfter (p : Str) : Str → Option Str
  | [] => none
  | s@(_ :: t) =>
    match dropIfPre p s with
    | some rest =>
      let w := rest.takeWhile isWordChar
      if w.isEmpty then extractAfter p t else some w
    | none => extractAfter p t

/-- The intent pattern table of the CareerAssistant (assistant.py lines
10-16), in dict insertion order. -/
def intent_patterns : List (Str × List Pat) :=
  [("stage".toList,
    [Pat.lit "stage".toList, Pat.lit "stagi".toList, Pat.lit "intern".toList,
     Pat.lit "alternance".toList, Pat.lit "apprentissage".toList]),
   ("debutant".toList,
    [Pat.lit "débutant".toList, Pat.lit "junior".toList,
     Pat.lit "premier emploi".toList, Pat.lit "sans expérience".toList]),
   ("remote".toList,
    [Pat.lit "remote".toList, Pat.lit "télétravail".toList,
     Pat.lit "à distance".toList, Pat.lit "teletravail".toList]),
   ("ville".toList,
    [Pat.litWord "à ".toList, Pat.litWord "sur ".toList,
     Pat.lit "casablanca".toList, Pat.lit "rabat".toList,
     Pat.lit "marrakech".toList, Pat.lit "tanger".toList]),
   ("competences".toList,
    [Pat.litWord "compétence en ".toList, Pat.litWord "savoir ".toList,
     Pat.litWord "connaissance en ".toList])]

/-- The intent → query-fragment map (assistant.py lines 19-24). -/
def intent_mapping : List (Str × Str) :=
  [("stage".toList, "stage alternance".toList),
   ("debutant".toList, "junior débutant".toList),
   ("remote".toList, "remote télétravail".toList),
   ("ville".toList, [])]

/-- The fixed competence keyword list (assistant.py line 50). -/
def competence_keywords : List Str :=
  ["développeur", "web", "mobile", "data", "marketing", "design", "comptable",
   "infirmier"].map String.toList

/-- Python `" ".join(parts)`. -/
def joinSpace : List Str → Str
  | [] => []
  | [s] => s
  | s :: l => s ++ ' ' :: joinSpace l

/-- The analysis record returned by `analyze_query`. -/
structure QueryAnalysis where
  original_message : Str
  intentions : List Str
  competences : List Str
  lieu : Option Str
  type_contrat : Str
  experience_level : Option Str
  search_query : Str
  fallback_queries : List Str

/-- `analyze_query(user_message)` from assistant.py lines 28-83. -/
def analyze_query (user_message : Str) : QueryAnalysis :=
  let msg := pyLower user_message
  let intentions :=
    (intent_patterns.filter (fun ip => ip.2.any (patMatches msg))).map Prod.fst
  let competences := competence_keywords.filter (fun k => containsSub k msg)
  let lieu := extractAfter "à ".toList msg
  let fallback_queries :=
    (match lieu with
     | some l => [msg ++ ' ' :: l]
     | none => []) ++
    competences.map (fun skill => skill ++ " emploi maroc".toList)
  let intent_parts := intentions.filterMap (fun i =>
    match (intent_mapping.find? (fun p => p.1 = i)).map Prod.snd with
    | some frag => if frag.isEmpty then none else some frag
    | none => none)
  let query_parts := competences ++ intent_parts
  { original_message := msg
    intentions := intentions
    competences := competences
    lieu := lieu
    type_contrat := "CDI".toList
    experience_level := none
    search_query := if query_parts.isEmpty then msg else joinSpace query_parts
    fallback_queries := fallback_queries }

/-- One generated search query with its two outbound links. -/
structure SearchQueryEntry where
  query : Str
  google_link : Str
  indeed_link : Str

/-- `location or "Morocco"`. -/
def queryLocation (location : Option Str) : Str :=
  match location with
  | some l => if l.isEmpty then "Morocco".toList else l
  | none => "Morocco".toList

/-- `_with_links(query, location)` from assistant.py lines 152-158. -/
def with_links (query : Str) (location : Option Str) : SearchQueryEntry :=
  let loc := queryLocation location
  { query := query
    google_link := generate_google_url query loc
    indeed_link := generate_indeed_url query loc }

/-- The accumulated state of `generate_search_queries`: the entry list and
the `seen` set (held as the list of already-added normalized queries). -/
structure QState where
  queries : List SearchQueryEntry
  seen : List Str

/-- The local helper `add(q)`: strip, skip empty or already-seen queries,
otherwise append the entry with its links. -/
def addQ (lieu : Option Str) (st : QState) (q : Str) : QState :=
  let q_norm := pyStrip q
  if q_norm.isEmpty || st.seen.contains q_norm then st
  else
    { queries := st.queries ++ [with_links q_norm lieu]
      seen := st.seen ++ [q_norm] }

/-- The final loop over the fallback templates: stop as soon as 5 queries
are collected (re-checking the bound each step is equivalent to Python's
`break` because the query count never decreases). -/
def addExtras (lieu : Option Str) : List Str → QState → QState
  | [], st => st
  | e :: es, st =>
    if st.queries.length ≥ 5 then st else addExtras lieu es (addQ lieu st e)

/-- The five fallback templates of lines 137-143 (each is the base query,
one space, and a fixed word). -/
def fallback_templates (base : Str) : List Str :=
  [base ++ ' ' :: "salaire".toList, base ++ ' ' :: "CDI".toList,
   base ++ ' ' :: "stage".toList, base ++ ' ' :: "offre d\x27emploi".toList,
   base ++ ' ' :: "opportunités".toList]

/-- `base = analysis['search_query'] or user_message` (line 101). -/
def gsq_base (user_message : Str) : Str :=
  if (analyze_query user_message).search_query.isEmpty then user_message
  else (analyze_query user_message).search_query

/-- The queries handed to `add(...)` in lines 112-134, in source order. -/
def gsq_attempted (user_message : Str) : List Str :=
  let analysis := analyze_query user_message
  let base := gsq_base user_message
  let tokens := wordTokens (pyLower user_message)
  [base, user_message]
  ++ (if tokens.contains "python".toList && tokens.contains "backend".toList then
      ["developpeur backend python maroc".toList,
       "python backend developer maroc".toList,
       base ++ ' ' :: "python backend".toList]
    else [])
  ++ (match analysis.lieu with
      | some l => [base ++ ' ' :: l]
      | none => [])
  ++ (if analysis.intentions.contains "remote".toList then
      [base ++ ' ' :: "télétravail".toList]
    else [])
  ++ analysis.competences.flatMap (fun skill =>
      ["offre ".toList ++ skill ++ ' ' :: (analysis.lieu.getD "maroc".toList),
       skill ++ " junior emploi".toList])
  ++ [base ++ ' ' :: "recrutement maroc".toList,
      "poste ".toList ++ base ++ " 2025".toList,
      "emploi ".toList ++ base ++ " casablanca".toList]

/-- `generate_search_queries(user_message)` from assistant.py lines 98-150.
The sequence of `add(...)` calls of the source is collected into
`gsq_attempted` (in source order) and folded through `addQ`, which is the
same sequential mutation; then the fallback loop runs and the first 8
entries are returned. -/
def generate_search_queries (user_message : Str) : List SearchQueryEntry :=
  let lieu := (analyze_query user_message).lieu
  let st := (gsq_attempted user_message).foldl (addQ lieu) ⟨[], []⟩
  (addExtras lieu (fallback_templates (gsq_base user_message)) st).queries.take 8

/-- The invariant maintained by `addQ`: `seen` is exactly the list of query
texts in order, without duplicates, and every entry carries the two links
built from its own query text and the call's location. -/
def QInv (lieu : Option Str) (st : QState) : Prop :=
  st.seen = st.queries.map (fun e => e.query) ∧
  st.seen.Nodup ∧
  ∀ e ∈ st.queries, e = with_links e.query lieu

theorem QInv_empty (lieu : Option Str) : QInv lieu ⟨[], []⟩ :=
  ⟨rfl, List.nodup_nil, by simp⟩

theorem addQ_inv (lieu : Option Str) (st : QState) (q : Str) (h : QInv lieu st) :
    QInv lieu (addQ lieu st q) := by
  obtain ⟨hseen, hnd, hlinks⟩ := h
  simp only [addQ]
  split
  · exact ⟨hseen, hnd, hlinks⟩
  · rename_i hcond
    rw [Bool.or_eq_true, not_or] at hcond
    obtain ⟨hne, hnc⟩ := hcond
    have hmem : pyStrip q ∉ st.seen := by
      intro hm
      exact hnc (by simpa using hm)
    refine ⟨?_, ?_, ?_⟩
    · simp [hseen, with_links]
    · simp [List.nodup_append, hnd, hmem]
    · intro e he
      rcases List.mem_append.mp he with he | he
      · exact hlinks e he
      · rw [List.mem_singleton.mp he]
        rfl

theorem addQ_len (lieu : Option Str) (st : QState) (q : Str) :
    st.queries.length ≤ (addQ lieu st q).queries.length := by
  simp only [addQ]
  split
  · exact le_rfl
  · simp

theorem foldl_addQ_inv (lieu : Option Str) (l : List Str) (st : QState)
    (h : QInv lieu st) : QInv lieu (l.foldl (addQ lieu) st) := by
  induction l generalizing st with
  | nil => exact h
  | cons q l ih => exact ih _ (addQ_inv lieu st q h)

theorem addExtras_inv (lieu : Option Str) (es : List Str) (st : QState)
    (h : QInv lieu st) : QInv lieu (addExtras lieu es st) := by
  induction es generalizing st with
  | nil => exact h
  | cons e es ih =>
    simp only [addExtras]
    split
    · exact h
    · exact ih _ (addQ_inv lieu st e h)

theorem length_filter_add_not (p : α → Bool) (l : List α) :
    (l.filter p).length + (l.filter (fun a => ! p a)).length = l.length := by
  induction l with
  | nil => rfl
  | cons a l ih =>
    by_cases h : p a <;> simp [List.filter_cons, h, ← ih] <;> omega

theorem filter_contains_length_le (extras seen : List Str)
    (hnd : (extras.map pyStrip).Nodup) :
    (extras.filter (fun e => seen.contains (pyStrip e))).length ≤ seen.length := by
  have hsl : ((extras.filter (fun e => seen.contains (pyStrip e))).map pyStrip).Sublist
      (extras.map pyStrip) := (List.filter_sublist extras).map pyStrip
  have h1 : ((extras.filter (fun e => seen.contains (pyStrip e))).map pyStrip).Nodup :=
    hnd.sublist hsl
  calc (extras.filter (fun e => seen.contains (pyStrip e))).length
      = ((extras.filter (fun e => seen.contains (pyStrip e))).map pyStrip).length :=
        (List.length_map _ _).symm
    _ = ((extras.filter (fun e => seen.contains (pyStrip e))).map pyStrip).toFinset.card :=
        (List.toFinset_card_of_nodup h1).symm
    _ ≤ seen.toFinset.card := by
        apply Finset.card_le_card
        intro x hx
        rw [List.mem_toFinset] at hx ⊢
        obtain ⟨e, he, rfl⟩ := List.mem_map.mp hx
        have := (List.mem_filter.mp he).2
        simpa using this
    _ ≤ seen.length := seen.toFinset_card_le

theorem addExtras_length_ge (lieu : Option Str) : ∀ (es : List Str) (st : QState),
    (es.map pyStrip).Nodup →
    (∀ e ∈ es, (pyStrip e).isEmpty = false) →
    min 5 (st.queries.length
        + (es.filter (fun e => ! st.seen.contains (pyStrip e))).length)
      ≤ (addExtras lieu es st).queries.length := by
  intro es
  induction es with
  | nil =>
    intro st _ _
    simp only [addExtras, List.filter_nil, List.length_nil, Nat.add_zero]
    omega
  | cons e es ih =>
    intro st hnd hne
    rw [List.map_cons, List.nodup_cons] at hnd
    obtain ⟨hnotin, hndtail⟩ := hnd
    simp only [addExtras]
    split
    · rename_i h5
      omega
    · rename_i h5
      by_cases hc : st.seen.contains (pyStrip e)
      · have hmem : pyStrip e ∈ st.seen := by simpa using hc
        have haddq : addQ lieu st e = st := by
          simp [addQ, hmem]
        have hfilter : (e :: es).filter (fun x => ! st.seen.contains (pyStrip x))
            = es.filter (fun x => ! st.seen.contains (pyStrip x)) := by
          simp [List.filter_cons, hmem]
        rw [haddq, hfilter]
        exact ih st hndtail (fun x hx => hne x (List.mem_cons_of_mem e hx))
      · have hcm : pyStrip e ∉ st.seen := by simpa using hc
        have hene := hne e (List.mem_cons_self e es)
        have haddq : addQ lieu st e =
            ⟨st.queries ++ [with_links (pyStrip e) lieu], st.seen ++ [pyStrip e]⟩ := by
          simp [addQ, hcm, hene]
        have hfilter : ((e :: es).filter
              (fun x => ! st.seen.contains (pyStrip x))).length
            = (es.filter (fun x => ! st.seen.contains (pyStrip x))).length + 1 := by
          simp [List.filter_cons, hcm]
        have hcongr : es.filter (fun x => ! (st.seen ++ [pyStrip e]).contains (pyStrip x))
            = es.filter (fun x => ! st.seen.contains (pyStrip x)) := by
          apply List.filter_congr
          intro x hx
          have hxe : pyStrip x ≠ pyStrip e := by
            intro hxeq
            exact hnotin (hxeq ▸ List.mem_map_of_mem pyStrip hx)
          simp [hxe]
        have hrec := ih ⟨st.queries ++ [with_links (pyStrip e) lieu],
            st.seen ++ [pyStrip e]⟩ hndtail
          (fun x hx => hne x (List.mem_cons_of_mem e hx))
        rw [haddq]
        simp only [hcongr, List.length_append, List.length_cons,
          List.length_nil] at hrec
        omega

theorem dropWhile_append_eq (p : α → Bool) (l1 l2 : List α) :
    (l1 ++ l2).dropWhile p =
      if (l1.dropWhile p).isEmpty then l2.dropWhile p else l1.dropWhile p ++ l2 := by
  induction l1 with
  | nil => simp
  | cons a l1 ih =>
    by_cases h : p a
    · simpa [List.dropWhile_cons, h] using ih
    · simp [List.dropWhile_cons, h]

theorem pyStrip_base_template (base t : Str) (a : Char) (ha : pyIsSpace a = false) :
    pyStrip (base ++ (t ++ [a])) =
      if (base.dropWhile pyIsSpace).isEmpty then (t ++ [a]).dropWhile pyIsSpace
      else base.dropWhile pyIsSpace ++ (t ++ [a]) := by
  have hshape : ∃ d, (base ++ (t ++ [a])).dropWhile pyIsSpace = d ++ [a] := by
    rw [dropWhile_append_eq]
    split
    · rw [dropWhile_append_eq]
      split
      · exact ⟨[], by simp [List.dropWhile_cons, ha]⟩
      · exact ⟨_, rfl⟩
    · exact ⟨_, by rw [← List.append_assoc]⟩
  obtain ⟨d, hd⟩ := hshape
  unfold pyStrip
  rw [hd, List.reverse_append]
  simp only [List.reverse_cons, List.reverse_nil, List.nil_append,
    List.singleton_append, List.dropWhile_cons, ha]
  simp only [Bool.false_eq_true, if_false, List.reverse_cons, List.reverse_reverse]
  rw [← hd, dropWhile_append_eq]

theorem pyStrip_template (base w t : Str) (a : Char)
    (hsplit : (' ' :: w : Str) = t ++ [a]) (ha : pyIsSpace a = false)
    (hdrop : ((' ' :: w : Str)).dropWhile pyIsSpace = w) :
    pyStrip (base ++ ' ' :: w) =
      if (base.dropWhile pyIsSpace).isEmpty then w
      else base.dropWhile pyIsSpace ++ ' ' :: w := by
  rw [show (base ++ ' ' :: w : Str) = base ++ (t ++ [a]) by rw [← hsplit],
    pyStrip_base_template base t a ha, ← hsplit, hdrop]

theorem fallback_nodup_nonempty (base : Str) :
    ((fallback_templates base).map pyStrip).Nodup ∧
    ∀ e ∈ fallback_templates base, (pyStrip e).isEmpty = false := by
  have h1 := pyStrip_template base "salaire".toList " salair".toList 'e'
    (by decide) (by decide) (by decide)
  have h2 := pyStrip_template base "CDI".toList " CD".toList 'I'
    (by decide) (by decide) (by decide)
  have h3 := pyStrip_template base "stage".toList " stag".toList 'e'
    (by decide) (by decide) (by decide)
  have h4 := pyStrip_template base "offre d\x27emploi".toList " offre d\x27emplo".toList 'i'
    (by decide) (by decide) (by decide)
  have h5 := pyStrip_template base "opportunités".toList " opportunité".toList 's'
    (by decide) (by decide) (by decide)
  have hmap : (fallback_templates base).map pyStrip =
      [pyStrip (base ++ ' ' :: "salaire".toList),
       pyStrip (base ++ ' ' :: "CDI".toList),
       pyStrip (base ++ ' ' :: "stage".toList),
       pyStrip (base ++ ' ' :: "offre d\x27emploi".toList),
       pyStrip (base ++ ' ' :: "opportunités".toList)] := rfl
  by_cases hbe : (base.dropWhile pyIsSpace).isEmpty = true
  · constructor
    · rw [hmap, h1, h2, h3, h4, h5, if_pos hbe, if_pos hbe, if_pos hbe,
        if_pos hbe, if_pos hbe]
      decide
    · intro e he
      have hm := List.mem_map_of_mem pyStrip he
      rw [hmap] at hm
      simp only [List.mem_cons, List.not_mem_nil, or_false] at hm
      rcases hm with h | h | h | h | h <;>
        · rw [h]
          first
            | rw [h1, if_pos hbe]; decide
            | rw [h2, if_pos hbe]; decide
            | rw [h3, if_pos hbe]; decide
            | rw [h4, if_pos hbe]; decide
            | rw [h5, if_pos hbe]; decide
  · obtain ⟨x, b, hxb⟩ : ∃ x b, base.dropWhile pyIsSpace = x :: b := by
      cases hd : base.dropWhile pyIsSpace with
      | nil => rw [hd] at hbe; exact absurd rfl hbe
      | cons x b => exact ⟨x, b, rfl⟩
    constructor
    · rw [hmap, h1, h2, h3, h4, h5, if_neg hbe, if_neg hbe, if_neg hbe,
        if_neg hbe, if_neg hbe]
      have heq : [base.dropWhile pyIsSpace ++ ' ' :: "salaire".toList,
          base.dropWhile pyIsSpace ++ ' ' :: "CDI".toList,
          base.dropWhile pyIsSpace ++ ' ' :: "stage".toList,
          base.dropWhile pyIsSpace ++ ' ' :: "offre d\x27emploi".toList,
          base.dropWhile pyIsSpace ++ ' ' :: "opportunités".toList]
          = [' ' :: "salaire".toList, ' ' :: "CDI".toList, ' ' :: "stage".toList,
             ' ' :: "offre d\x27emploi".toList,
             ' ' :: "opportunités".toList].map
              (fun w => base.dropWhile pyIsSpace ++ w) := rfl
      rw [heq]
      refine List.Nodup.map ?_ (by decide)
      intro u v huv
      exact List.append_cancel_left huv
    · intro e he
      have hm := List.mem_map_of_mem pyStrip he
      rw [hmap] at hm
      simp only [List.mem_cons, List.not_mem_nil, or_false] at hm
      rcases hm with h | h | h | h | h <;>
        · rw [h]
          first
            | rw [h1, if_neg hbe, hxb]; rfl
            | rw [h2, if_neg hbe, hxb]; rfl
            | rw [h3, if_neg hbe, hxb]; rfl
            | rw [h4, if_neg hbe, hxb]; rfl
            | rw [h5, if_neg hbe, hxb]; rfl

theorem gsq_core (lieu : Option Str) (base : Str) (st : QState)
    (hinv : QInv lieu st) :
    5 ≤ ((addExtras lieu (fallback_templates base) st).queries.take 8).length ∧
    ((addExtras lieu (fallback_templates base) st).queries.take 8).length ≤ 8 ∧
    (((addExtras lieu (fallback_templates base) st).queries.take 8).map
        (fun e => e.query)).Nodup ∧
    (∀ e ∈ (addExtras lieu (fallback_templates base) st).queries.take 8,
      e.google_link = generate_google_url e.query (queryLocation lieu) ∧
      e.indeed_link = generate_indeed_url e.query (queryLocation lieu)) := by
  obtain ⟨hnd5, hne5⟩ := fallback_nodup_nonempty base
  obtain ⟨hseenF, hndF, hlinksF⟩ := addExtras_inv lieu (fallback_templates base) st hinv
  have hge := addExtras_length_ge lieu (fallback_templates base) st hnd5 hne5
  have hsub := filter_contains_length_le (fallback_templates base) st.seen hnd5
  have hsplit := length_filter_add_not
    (fun e => st.seen.contains (pyStrip e)) (fallback_templates base)
  have hseenlen : st.seen.length = st.queries.length := by
    rw [hinv.1, List.length_map]
  have hlen5 : (fallback_templates base).length = 5 := rfl
  have h5 : 5 ≤ (addExtras lieu (fallback_templates base) st).queries.length := by
    omega
  refine ⟨?_, ?_, ?_, ?_⟩
  · simp only [List.length_take]
    omega
  · simp only [List.length_take]
    omega
  · rw [List.map_take, ← hseenF]
    exact (List.take_sublist 8 _).nodup hndF
  · intro e he
    have hmem : e ∈ (addExtras lieu (fallback_templates base) st).queries :=
      List.take_subset 8 _ he
    have hl := hlinksF e hmem
    exact ⟨congrArg SearchQueryEntry.google_link hl,
      congrArg SearchQueryEntry.indeed_link hl⟩

/-- Claim C7, confirmed: for every non-empty message, the generated search
queries number at least 5 and at most 8, their query texts are pairwise
distinct, and each entry carries the Google link and the Indeed link built
from its own query text and the location detected in the message. -/
theorem C7_generate_search_queries (msg : Str) (hmsg : msg ≠ []) :
    5 ≤ (generate_search_queries msg).length ∧
    (generate_search_queries msg).length ≤ 8 ∧
    ((generate_search_queries msg).map (fun e => e.query)).Nodup ∧
    (∀ e ∈ generate_search_queries msg,
      e.google_link = generate_google_url e.query
        (queryLocation (analyze_query msg).lieu) ∧
      e.indeed_link = generate_indeed_url e.query
        (queryLocation (analyze_query msg).lieu)) :=
  gsq_core (analyze_query msg).lieu (gsq_base msg)
    ((gsq_attempted msg).foldl (addQ (analyze_query msg).lieu) ⟨[], []⟩)
    (foldl_addQ_inv _ _ _ (QInv_empty _))

/-- Witness for C7 at the concrete message named by the claim. -/
theorem C7_generate_search_queries_witness :
    5 ≤ (generate_search_queries "python backend developer".toList).length ∧
    (generate_search_queries "python backend developer".toList).length ≤ 8 ∧
    ((generate_search_queries "python backend developer".toList).map
        (fun e => e.query)).Nodup ∧
    (∀ e ∈ generate_search_queries "python backend developer".toList,
      e.google_link = generate_google_url e.query
        (queryLocation (analyze_query "python backend developer".toList).lieu) ∧
      e.indeed_link = generate_indeed_url e.query
        (queryLocation (analyze_query "python backend developer".toList).lieu)) :=
  C7_generate_search_queries "python backend developer".toList (by decide)

/-! ## C9 and C10: session handling in the assistant
(src/backend/services/assistant.py lines 227-240) and the /api/clarify,
/api/results and search-flow handlers
(src/backend/routes/search_routes.py lines 353-423). -/

/-- The outbound-link bundle built by `LinkGenerator.generate_all_urls`. -/
structure AllUrls where
  stagiaires_url : Str
  linkedin_url : Str
  indeed_url : Str
  google_url : Str
  rekrute_url : Str

/-- `LinkGenerator.generate_all_urls(job_title, location)`. -/
def generate_all_urls (job_title : Str) (location : Str) : AllUrls :=
  { stagiaires_url := generate_stagiaires_url job_title
    linkedin_url := generate_linkedin_url job_title location
    indeed_url := generate_indeed_url job_title location
    google_url := generate_google_url job_title location
    rekrute_url := generate_rekrute_url job_title }

/-- One catalogue record, as read by `build_job_results` (all fields are
taken total; the source's `dict.get` defaults never fire on catalogue rows). -/
structure JobData where
  job_id : Int
  job_title : Str
  category : Str
  description : Str
  required_skills : Str
  recommended_courses : Str
  avg_salary_mad : Str
  demand_level : Str

/-- The fitted JobMatcher instance as seen by the assistant: its
`search_jobs` (the C6 algorithm over the instance's similarity vectors) and
its row accessor are oracle functions of the instance. -/
structure MatcherO where
  search_jobs : Str → ℕ → List (ℕ × ℚ)
  get_job_by_index : ℕ → JobData

/-- One aggregated candidate of `build_job_results`. -/
structure AggItem where
  score : ℚ
  job : JobData
  source_query : Str

/-- Integer-keyed dict lookup (for the `aggregated` dict). -/
def iLookup (k : Int) : List (Int × AggItem) → Option AggItem
  | [] => none
  | (k0, v) :: d => if k0 = k then some v else iLookup k d

/-- Integer-keyed dict update. -/
def iSet (k : Int) (v : AggItem) : List (Int × AggItem) → List (Int × AggItem)
  | [] => [(k, v)]
  | (k0, v0) :: d => if k0 = k then (k, v) :: d else (k0, v0) :: iSet k v d

/-- The aggregation loop of `build_job_results` (assistant.py lines 165-173):
per query, per match, keep the best score seen for each job id. -/
def aggregate (m : MatcherO) (top_k : ℕ) (qs : List SearchQueryEntry) :
    List (Int × AggItem) :=
  qs.foldl (fun agg entry =>
    (m.search_jobs entry.query top_k).foldl (fun agg p =>
      let job := m.get_job_by_index p.1
      let job_id := job.job_id
      match iLookup job_id agg with
      | none => agg ++ [(job_id, ⟨p.2, job, entry.query⟩)]
      | some item =>
        if p.2 > item.score then iSet job_id ⟨p.2, job, entry.query⟩ agg
        else agg) agg) []

/-- One entry of the job-result list returned to the client. -/
structure JobResult where
  job_id : Int
  job_title : Str
  category : Str
  description : Str
  required_skills : Str
  recommended_courses : Str
  avg_salary_mad : Str
  demand_level : Str
  match_score : ℚ
  linkedin_url : Str
  all_search_urls : AllUrls
  source_query : Str

/-- `build_job_results(job_matcher, search_queries, top_k)` from assistant.py
lines 160-212. -/
def build_job_results (matcher : Option MatcherO)
    (search_queries : List SearchQueryEntry) (top_k : ℕ) : List JobResult :=
  match matcher with
  | none => []
  | some m =>
    let aggregated := aggregate m top_k search_queries
    let ranked := sortStable (fun a b : AggItem => decide (b.score < a.score))
      (aggregated.map Prod.snd)
    let primary_query := ((search_queries.head?).map (fun e => e.query)).getD []
    let primary_tokens := (wordTokens (pyLower primary_query)).filter
      (fun t => 2 < t.length)
    let is_relevant := fun (job : JobData) =>
      primary_tokens.any (fun tok =>
        containsSub tok (pyLower job.job_title)
          || containsSub tok (pyLower job.required_skills)
          || containsSub tok (pyLower job.description))
    let filtered_ranked := ranked.filter (fun item => is_relevant item.job)
    let ranked2 := if filtered_ranked.isEmpty then ranked else filtered_ranked
    (ranked2.take top_k).map (fun item =>
      let urls := generate_all_urls item.job.job_title "Morocco".toList
      { job_id := item.job.job_id
        job_title := item.job.job_title
        category := item.job.category
        description := item.job.description
        required_skills := item.job.required_skills
        recommended_courses := item.job.recommended_courses
        avg_salary_mad := item.job.avg_salary_mad
        demand_level := item.job.demand_level
        match_score := pyRound item.score 4
        linkedin_url := urls.linkedin_url
        all_search_urls := urls
        source_query := item.source_query })

/-- Python `", ".join(parts)`. -/
def joinCommaSpace : List Str → Str
  | [] => []
  | [s] => s
  | s :: l => s ++ ',' :: ' ' :: joinCommaSpace l

/-- `_generate_suggestions(analysis, jobs)` from assistant.py lines 275-295. -/
def generate_suggestions (analysis : QueryAnalysis) (jobs : List JobResult) :
    List Str :=
  if jobs.isEmpty then
    ["Aucun emploi trouvé. Essayez d\x27élargir vos critères de recherche.".toList]
  else
    (if jobs.length < 3 then
      ["Peu de résultats. Essayez avec des termes plus généraux comme \x27développeur\x27 ou \x27marketing\x27.".toList]
    else [])
    ++ (if ! analysis.competences.isEmpty then
        ["Compétences détectées: ".toList ++ joinCommaSpace analysis.competences]
      else [])
    ++ (if analysis.intentions.contains "stage".toList
          && (jobs.filter (fun j =>
              containsSub "stage".toList (pyLower j.job_title))).length == 0 then
        ["Pour plus de stages, visitez directement les sites des entreprises ou les plateformes spécialisées.".toList]
      else [])

/-- The summary block of `generate_response`. -/
structure ResponseSummary where
  total_matches : ℕ
  high_quality_matches : ℕ
  detected_skills : List Str
  detected_intentions : List Str

/-- The response payload assembled by `generate_response`. -/
structure AssistantResponse where
  analysis : QueryAnalysis
  summary : ResponseSummary
  search_query_used : Str
  jobs : List JobResult
  suggestions : List Str

/-- `generate_response(user_message, search_results)` from assistant.py lines
242-273 (the Pydantic/dict conversion is the identity here). -/
def generate_response (user_message : Str) (search_results : List JobResult) :
    AssistantResponse :=
  let analysis := analyze_query user_message
  { analysis := analysis
    summary :=
      { total_matches := search_results.length
        high_quality_matches :=
          (search_results.filter (fun j => decide (j.match_score > 0.7))).length
        detected_skills := analysis.competences
        detected_intentions := analysis.intentions }
    search_query_used := analysis.search_query
    jobs := search_results
    suggestions := generate_suggestions analysis search_results }

/-- The payload built by `_run_search_flow` (search_routes.py lines 353-377). -/
structure SearchPayload where
  clarify : Bool
  search_queries : List SearchQueryEntry
  results : AssistantResponse
  metadata_source : Str
  metadata_timestamp : Str
  assistant_message : Option Str

/-- One stored session (assistant.py lines 227-233). -/
structure SessionData where
  original_query : Str
  clarify_question : Str
  last_results : Option SearchPayload
  timestamp : Str

/-- The assistant's in-memory session map. -/
abbrev Sessions := List (Str × SessionData)

/-- `save_session(session_id, original_query, question)`; the timestamp
oracle `now` stands for `datetime.utcnow().isoformat()`. -/
def save_session (session_id original_query question now : Str)
    (sessions : Sessions) : Sessions :=
  jSet session_id
    { original_query := original_query
      clarify_question := question
      last_results := none
      timestamp := now } sessions

/-- `get_session(session_id)`. -/
def get_session (session_id : Str) (sessions : Sessions) : Option SessionData :=
  jLookup session_id sessions

/-- `update_session_results(session_id, results)` from assistant.py lines
238-240: mutate only when the session id is already present. -/
def update_session_results (session_id : Str) (res : SearchPayload)
    (sessions : Sessions) : Sessions :=
  match jLookup session_id sessions with
  | none => sessions
  | some s => jSet session_id { s with last_results := some res } sessions

/-- The external collaborators of the search flow: the fitted matcher (absent
when construction failed), its two title checks, the optional LLM chat
message (none also stands for a falsy empty reply), and Python's salted
`hash` used for question variety. -/
structure FlowDeps where
  matcher : Option MatcherO
  has_job_title : Str → Bool
  semantic_match_title : Str → Bool
  llm_chat_message : Str → Option Str
  py_hash : Str → ℕ

/-- `_run_search_flow(user_query, session_id)` from search_routes.py lines
353-377: generate queries, build job results, assemble the payload with
`clarify: False`, optionally attach an LLM message, and store the payload in
the session (a no-op for an unknown session id). -/
def run_search_flow (deps : FlowDeps) (now : Str) (user_query session_id : Str)
    (sessions : Sessions) : SearchPayload × Sessions :=
  let search_queries := generate_search_queries user_query
  let job_results := build_job_results deps.matcher search_queries 5
  let assistant_response := generate_response user_query job_results
  let llm_message :=
    if deps.matcher.isSome
        && (deps.has_job_title user_query || deps.semantic_match_title user_query) then
      deps.llm_chat_message user_query
    else none
  let payload : SearchPayload :=
    { clarify := false
      search_queries := search_queries
      results := assistant_response
      metadata_source := "assistant_v2".toList
      metadata_timestamp := now
      assistant_message := llm_message }
  (payload, update_session_results session_id payload sessions)

/-- The five canned clarification prompts (assistant.py lines 216-222). -/
def clarification_variants : List Str :=
  ["Juste pour mieux cibler, quel métier ou domaine tu vises ?",
   "Tu pensais à quel rôle exactement (ex: backend, data, design) ?",
   "Dis-m\x27en un peu plus : quel type de poste veux-tu que je cherche ?",
   "Super ! Quelle famille de métiers t\x27intéresse (tech, marketing, ops) ?",
   "Top, vers quel job devrais-je orienter la recherche ?"].map String.toList

/-- `build_clarification_question(user_message)`: variant selected by
`abs(hash(message)) % 5` (the salted hash enters via the oracle). -/
def build_clarification_question (deps : FlowDeps) (user_message : Str) : Str :=
  (clarification_variants.get?
    (deps.py_hash user_message % clarification_variants.length)).getD []

/-- The body of a `/api/clarify` response: either a clarification question
(`{"clarify": True, "question": q}`) or a full search payload. -/
inductive ClarifyResponse where
  | question : Str → ClarifyResponse
  | payload : SearchPayload → ClarifyResponse

/-- POST `/api/clarify` (search_routes.py lines 398-415). -/
def clarify (deps : FlowDeps) (now : Str) (session_id answer : Str)
    (sessions : Sessions) : ClarifyResponse × Sessions :=
  match get_session session_id sessions with
  | none =>
    let s1 := save_session session_id answer [] now sessions
    let r := run_search_flow deps now answer session_id s1
    (ClarifyResponse.payload r.1, r.2)
  | some session =>
    let refined_query := pyStrip (session.original_query ++ ' ' :: answer)
    if deps.has_job_title refined_query
        || deps.semantic_match_title refined_query then
      let r := run_search_flow deps now refined_query session_id sessions
      (ClarifyResponse.payload r.1, r.2)
    else
      let question := build_clarification_question deps refined_query
      (ClarifyResponse.question question,
        save_session session_id session.original_query question now sessions)

/-- GET `/api/results` (search_routes.py lines 418-423): 404 when the session
is unknown or holds no stored results. -/
def last_results (session_id : Str) (sessions : Sessions) :
    Except ℕ SearchPayload :=
  match get_session session_id sessions with
  | none => Except.error 404
  | some s =>
    match s.last_results with
    | none => Except.error 404
    | some r => Except.ok r

/-- Claim C9, confirmed: POST /api/clarify with an unknown session id neither
fails nor asks for clarification — it returns the payload of the full search
flow run on the answer text alone (so the payload does not depend on any
other stored session, and in particular combines no prior query), with
`clarify = false`, and it creates a fresh session under that id whose
original query is the answer and whose stored results are that payload. -/
theorem C9_clarify_unknown_session (deps : FlowDeps) (now sid answer : Str)
    (s1 s2 : Sessions) (h1 : jLookup sid s1 = none) (h2 : jLookup sid s2 = none) :
    ((clarify deps now sid answer s1).1
      = ClarifyResponse.payload
          (run_search_flow deps now answer sid
            (save_session sid answer [] now s1)).1) ∧
    ((run_search_flow deps now answer sid
        (save_session sid answer [] now s1)).1.clarify = false) ∧
    ((clarify deps now sid answer s1).1 = (clarify deps now sid answer s2).1) ∧
    (jLookup sid (clarify deps now sid answer s1).2
      = some { original_query := answer
               clarify_question := []
               last_results := some (run_search_flow deps now answer sid
                 (save_session sid answer [] now s1)).1
               timestamp := now }) := by
  have hc1 : clarify deps now sid answer s1
      = (ClarifyResponse.payload
          (run_search_flow deps now answer sid (save_session sid answer [] now s1)).1,
        (run_search_flow deps now answer sid (save_session sid answer [] now s1)).2) := by
    unfold clarify get_session
    rw [h1]
  have hc2 : clarify deps now sid answer s2
      = (ClarifyResponse.payload
          (run_search_flow deps now answer sid (save_session sid answer [] now s2)).1,
        (run_search_flow deps now answer sid (save_session sid answer [] now s2)).2) := by
    unfold clarify get_session
    rw [h2]
  refine ⟨by rw [hc1], rfl, by rw [hc1, hc2]; rfl, ?_⟩
  rw [hc1]
  have hsave : jLookup sid (save_session sid answer [] now s1)
      = some { original_query := answer, clarify_question := [],
               last_results := none, timestamp := now } :=
    jLookup_jSet_self sid _ s1
  show jLookup sid (update_session_results sid _ (save_session sid answer [] now s1)) = _
  unfold update_session_results
  rw [hsave]
  exact jLookup_jSet_self sid _ _

/-- Witness for C9 at concrete inputs: an empty session map and a map holding
an unrelated session. -/
theorem C9_clarify_unknown_session_witness :
    ((clarify ⟨none, fun _ => false, fun _ => false, fun _ => none, fun _ => 0⟩
        [] "s1".toList "data analyst".toList []).1
      = ClarifyResponse.payload
          (run_search_flow
            ⟨none, fun _ => false, fun _ => false, fun _ => none, fun _ => 0⟩
            [] "data analyst".toList "s1".toList
            (save_session "s1".toList "data analyst".toList [] [] [])).1) ∧
    ((run_search_flow
        ⟨none, fun _ => false, fun _ => false, fun _ => none, fun _ => 0⟩
        [] "data analyst".toList "s1".toList
        (save_session "s1".toList "data analyst".toList [] [] [])).1.clarify = false) ∧
    ((clarify ⟨none, fun _ => false, fun _ => false, fun _ => none, fun _ => 0⟩
        [] "s1".toList "data analyst".toList []).1
      = (clarify ⟨none, fun _ => false, fun _ => false, fun _ => none, fun _ => 0⟩
          [] "s1".toList "data analyst".toList
          [("other".toList, ⟨"q".toList, [], none, []⟩)]).1) ∧
    (jLookup "s1".toList
        (clarify ⟨none, fun _ => false, fun _ => false, fun _ => none, fun _ => 0⟩
          [] "s1".toList "data analyst".toList []).2
      = some { original_query := "data analyst".toList
               clarify_question := []
               last_results := some (run_search_flow
                 ⟨none, fun _ => false, fun _ => false, fun _ => none, fun _ => 0⟩
                 [] "data analyst".toList "s1".toList
                 (save_session "s1".toList "data analyst".toList [] [] [])).1
               timestamp := [] }) :=
  C9_clarify_unknown_session
    ⟨none, fun _ => false, fun _ => false, fun _ => none, fun _ => 0⟩
    [] "s1".toList "data analyst".toList []
    [("other".toList, ⟨"q".toList, [], none, []⟩)] rfl rfl

/-- Claim C10, confirmed: `update_session_results` on a session id absent
from the map leaves the map unchanged (no session created, no error), and a
subsequent GET /api/results for that id still answers 404, so the attached
results are silently discarded. -/
theorem C10_update_session_results_unknown (sid : Str) (res : SearchPayload)
    (sessions : Sessions) (h : jLookup sid sessions = none) :
    update_session_results sid res sessions = sessions ∧
    last_results sid (update_session_results sid res sessions)
      = Except.error 404 := by
  have h1 : update_session_results sid res sessions = sessions := by
    unfold update_session_results
    rw [h]
  refine ⟨h1, ?_⟩
  rw [h1]
  unfold last_results get_session
  rw [h]

/-- Witness for C10 at a concrete session map lacking the id. -/
theorem C10_update_session_results_unknown_witness :
    update_session_results "x".toList
        (run_search_flow
          ⟨none, fun _ => false, fun _ => false, fun _ => none, fun _ => 0⟩
          [] "q".toList "x".toList []).1
        [("y".toList, ⟨"q".toList, [], none, []⟩)]
      = [("y".toList, ⟨"q".toList, [], none, []⟩)] ∧
    last_results "x".toList
        (update_session_results "x".toList
          (run_search_flow
            ⟨none, fun _ => false, fun _ => false, fun _ => none, fun _ => 0⟩
            [] "q".toList "x".toList []).1
          [("y".toList, ⟨"q".toList, [], none, []⟩)])
      = Except.error 404 :=
  C10_update_session_results_unknown "x".toList _
    [("y".toList, ⟨"q".toList, [], none, []⟩)] rfl

end CareerMatch
